import Mathlib

/-!
# Verification of the ai-eval-service batch evaluation orchestrator

Shallow embedding of `src/ai-eval-service/evaluator.py` and
`src/ai-eval-service/worker.py` (repository `pankaj3399/ross-server`).

Conventions of the embedding:
* Python numbers are modelled as rationals (`ℚ`); the metric dictionaries the
  external scorers return are association lists `String × PyObj`.
* Fallible Python code (functions that can raise) returns `Except PyErr α`;
  a `try/except` block is a `match` on that result.
* The external scoring capabilities (LangFair's toxicity / stereotype /
  counterfactual objects) are parameters collected in a `ScorerEnv`; the
  orchestrator code under verification is everything built on top of them.
-/

namespace RossServer

/-- A Python object appearing inside a metrics dictionary.  `pstr` strings are
modelled as non-numeric (`float()` raising on them); the scorers under the
capability boundary report numeric metrics as numbers (`pnum`). -/
inductive PyObj where
  | pnone
  | pnum (q : ℚ)
  | pstr (s : String)
  | plist (elems : List PyObj)
  | pdict (entries : List (String × PyObj))

/-- A Python dictionary with string keys (association list, first match wins —
Python dictionaries cannot hold a key twice). -/
abbrev PyDict := List (String × PyObj)

/-- Python truthiness (`bool(v)`): `None`, `0`, empty containers are falsy. -/
def PyObj.truthy : PyObj → Bool
  | .pnone => false
  | .pnum q => decide (q ≠ 0)
  | .pstr s => !s.isEmpty
  | .plist xs => !xs.isEmpty
  | .pdict es => !es.isEmpty

/-- `float(v)` when it succeeds: numbers convert, everything else raises
(`None`/lists/dicts raise `TypeError`, the strings appearing in this code are
non-numeric so `float` raises `ValueError` on them). -/
def PyObj.toFloat? : PyObj → Option ℚ
  | .pnum q => some q
  | _ => none

/-- `d.get(k)` / `d.get(k, dflt)`: first value stored under `k`, else the
default. -/
def dictGet? (d : PyDict) (k : String) : Option PyObj :=
  (d.find? (fun kv => kv.fst = k)).map Prod.snd

/-- `d.get(k, dflt)`. -/
def dictGet (d : PyDict) (k : String) (dflt : PyObj) : PyObj :=
  (dictGet? d k).getD dflt

/-- Exceptions raised by the orchestrator itself. -/
inductive PyErr where
  | valueError (msg : String)
  | attributeError
  | typeError
deriving DecidableEq, Repr

deriving instance DecidableEq for Except

/-- `s.lower()`: character-wise lower-casing. -/
def pyLower (s : String) : String :=
  ⟨s.data.map Char.toLower⟩

/-- The `safe_float` helper shared by the `_format_*` methods:
`None` → default, `float(value)` when it succeeds, default when it raises. -/
def safe_float (value : PyObj) (default : ℚ) : ℚ :=
  match value with
  | .pnone => default
  | v => (v.toFloat?).getD default

/-- Formatted toxicity score (`_format_toxicity_metrics` output). -/
structure ToxicityScore where
  toxic_fraction : ℚ
  expected_max_toxicity : ℚ
  toxicity_probability : ℚ
deriving DecidableEq, Repr

/-- Formatted stereotype score (`_format_stereotype_metrics` output). -/
structure StereotypeScore where
  stereotype_association : ℚ
  cooccurrence_bias : ℚ
  stereotype_fraction : ℚ
deriving DecidableEq, Repr

/-- Formatted counterfactual score (`_format_counterfactual_metrics` output). -/
structure CounterfactualScore where
  cosine_similarity : ℚ
  rouge_similarity : ℚ
  bleu_similarity : ℚ
  sentiment_bias : ℚ
deriving DecidableEq, Repr

/-- `'needle' in haystack` on Python strings: substring containment. -/
def strContains (haystack needle : String) : Bool :=
  decide (needle.data <:+: haystack.data)

/-- `LangFairEvaluator._format_toxicity_metrics`: empty dictionary gives the
all-zero score, otherwise each field is `safe_float` of the raw entry. -/
def format_toxicity_metrics (toxicity_metrics : PyDict) : ToxicityScore :=
  if toxicity_metrics.isEmpty then
    { toxic_fraction := 0, expected_max_toxicity := 0, toxicity_probability := 0 }
  else
    { toxic_fraction := safe_float (dictGet toxicity_metrics "Toxic Fraction" .pnone) 0
      expected_max_toxicity :=
        safe_float (dictGet toxicity_metrics "Expected Maximum Toxicity" .pnone) 0
      toxicity_probability :=
        safe_float (dictGet toxicity_metrics "Toxicity Probability" .pnone) 0 }

/-- `LangFairEvaluator._format_stereotype_metrics`: the stereotype-fraction key
is located by substring search (`'Stereotype Fraction' in key`) over the raw
keys; the `category` argument is accepted but unused, as in the source. -/
def format_stereotype_metrics (stereotype_metrics : PyDict) (category : String) :
    StereotypeScore :=
  let _ := category
  if stereotype_metrics.isEmpty then
    { stereotype_association := 0, cooccurrence_bias := 0, stereotype_fraction := 0 }
  else
    let stereotype_fraction_key :=
      (stereotype_metrics.map Prod.fst).find? (fun k => strContains k "Stereotype Fraction")
    { stereotype_association :=
        safe_float (dictGet stereotype_metrics "Stereotype Association" .pnone) 0
      cooccurrence_bias :=
        safe_float (dictGet stereotype_metrics "Cooccurrence Bias" .pnone) 0
      stereotype_fraction :=
        match stereotype_fraction_key with
        | some k => safe_float (dictGet stereotype_metrics k .pnone) 0
        | none => 0 }

/-- `LangFairEvaluator._format_counterfactual_metrics`: empty dictionary gives
the all-zero score; otherwise the value stored under the first key is
dereferenced with `.get`, which raises `AttributeError` unless that value is a
dictionary (in particular it raises on the `{"error": message}` marker, whose
first value is a string). -/
def format_counterfactual_metrics (counterfactual_metrics : PyDict) :
    Except PyErr CounterfactualScore :=
  match counterfactual_metrics with
  | [] =>
      .ok { cosine_similarity := 0, rouge_similarity := 0, bleu_similarity := 0
            sentiment_bias := 0 }
  | (_, v) :: _ =>
      match v with
      | .pdict metrics =>
          .ok { cosine_similarity := safe_float (dictGet metrics "Cosine Similarity" .pnone) 0
                rouge_similarity := safe_float (dictGet metrics "RougeL Similarity" .pnone) 0
                bleu_similarity := safe_float (dictGet metrics "Bleu Similarity" .pnone) 0
                sentiment_bias := safe_float (dictGet metrics "Sentiment Bias" .pnone) 0 }
      | _ => .error .attributeError

/-! ## Category resolution -/

/-- The fixed `category_mapping` table (evaluator.py, used in both
`evaluate_response` and `evaluate_batch`). -/
def category_mapping : List (String × String) :=
  [("gender", "gender"), ("race", "race"), ("ethnicity", "race"),
   ("religion", "religion"), ("age", "age")]

/-- `category_mapping.get(category.lower(), "gender")`: lower-case the label,
look it up, default to `"gender"`.  No trimming takes place. -/
def resolveCategory (category : String) : String :=
  ((category_mapping.find? (fun kv => kv.fst = pyLower category)).map Prod.snd).getD "gender"

/-- `HAS_LLM_SUPPORT` module constant (evaluator.py line 7 sets it to `False`,
so `_get_counterfactual_generator` can never build a generator). -/
def HAS_LLM_SUPPORT : Bool := false

/-! ## Items and validation -/

/-- One inbound batch item after the schema layer: the four fields
`evaluate_batch` reads out of the item dictionary (string fields already
coerced as by the `isinstance` checks, `include_counterfactual` already
reduced to its truthiness). -/
structure BatchItem where
  question_text : String
  user_response : String
  category : String
  include_counterfactual : Bool
deriving DecidableEq, Repr

/-- A validated item (`validated_items` entry): the input fields plus the
original position `index` assigned during validation. -/
structure VItem where
  question_text : String
  user_response : String
  category : String
  include_counterfactual : Bool
  index : ℕ
deriving DecidableEq, Repr

/-- Fallback `VItem` used with `List.getD` (list accesses in the pipeline are
all in bounds; the fallback is never read). -/
def dVItem : VItem := ⟨"", "", "", false, 0⟩

/-- `not user_response.strip()`: true iff the string is empty or
whitespace-only. -/
def stripIsEmpty (s : String) : Bool :=
  s.data.all Char.isWhitespace

/-- The validation loop of `evaluate_batch` (lines 292–313): walks the items
in order, raising `ValueError(f"Item {i}: user_response cannot be empty")` at
the first blank response, otherwise tagging each item with its index. -/
def validateLoop (i : ℕ) : List BatchItem → Except PyErr (List VItem)
  | [] => .ok []
  | item :: rest =>
      if stripIsEmpty item.user_response then
        .error (.valueError ("Item " ++ toString i ++ ": user_response cannot be empty"))
      else
        match validateLoop (i + 1) rest with
        | .ok tail =>
            .ok (⟨item.question_text, item.user_response, item.category,
                  item.include_counterfactual, i⟩ :: tail)
        | .error e => .error e

/-! ## The external capability boundary -/

/-- What `ToxicityMetrics.evaluate(...)` hands back: the orchestrator reads
`result.get('metrics', {})` (a dictionary) and `result.get('data', {})`
(an arbitrary object probed for a per-item `scores` list). -/
structure ToxOut where
  metrics : PyDict
  data : PyObj

/-- The external scoring capabilities, as the orchestrator consumes them.
`toxicity`/`stereotype` may raise (`.error` carries `str(e)`); `stereotype`
yields the raw metrics dictionary.  `cfGen` is the counterfactual generator
slot (`self._counterfactual_generator`): `none` when unavailable — always the
case as shipped, since `HAS_LLM_SUPPORT` is `False` — and otherwise a function
from (question_text, attribute) to the counterfactual metrics dictionary or a
raised error message (generation, pair extraction and comparison collapsed
into one fallible call, since every exception in that span is caught by the
same handler). -/
structure ScorerEnv where
  toxicity : List String → List String → Except String ToxOut
  stereotype : List String → String → Except String PyDict
  cfGen : Option (String → String → Except String PyDict)

/-- Embedding of `_get_counterfactual_generator`: a generator exists only when
`HAS_LLM_SUPPORT` holds and an API key is configured; with the source constant
it is always `None`. -/
def get_counterfactual_generator (apiKeyPresent : Bool)
    (g : String → String → Except String PyDict) :
    Option (String → String → Except String PyDict) :=
  if HAS_LLM_SUPPORT && apiKeyPresent then some g else none

/-! ## Default (degraded) metric dictionaries -/

/-- The zero-valued toxicity dictionary installed when the toxicity scorer
raises. -/
def defaultToxicityDict : PyDict :=
  [("Toxic Fraction", .pnum 0), ("Expected Maximum Toxicity", .pnum 0),
   ("Toxicity Probability", .pnum 0)]

/-- The zero-valued stereotype dictionary installed for a category group whose
scorer call raised; the fraction key is tagged with the category. -/
def defaultStereotypeDict (langfair_category : String) : PyDict :=
  [("Stereotype Association", .pnum 0), ("Cooccurrence Bias", .pnum 0),
   ("Stereotype Fraction - " ++ langfair_category, .pnum 0)]

/-! ## Toxicity stage of `evaluate_batch` (lines 318–352) -/

/-- `len(v)` when the object is sized, `none` when `len` raises `TypeError`. -/
def pyLen? : PyObj → Option ℕ
  | .pstr s => some s.length
  | .plist xs => some xs.length
  | .pdict es => some es.length
  | _ => none

/-- `iter(v)` for sized objects: lists yield their elements, strings their
characters, dictionaries their keys. -/
def pyElems : PyObj → List PyObj
  | .pstr s => s.data.map (fun c => .pstr (String.singleton c))
  | .plist xs => xs
  | .pdict es => es.map (fun kv => .pstr kv.fst)
  | _ => []

/-- Per-item toxicity dictionary built from one `scores` entry (lines
331–337): dictionaries are read field-wise, bare numbers populate
`Expected Maximum Toxicity`, anything else zeroes out. -/
def perItemToxDict : PyObj → PyDict
  | .pdict d =>
      [("Toxic Fraction", dictGet d "toxic_fraction" (.pnum 0)),
       ("Expected Maximum Toxicity", dictGet d "expected_max_toxicity" (.pnum 0)),
       ("Toxicity Probability", dictGet d "toxicity_probability" (.pnum 0))]
  | .pnum q =>
      [("Toxic Fraction", .pnum 0), ("Expected Maximum Toxicity", .pnum q),
       ("Toxicity Probability", .pnum 0)]
  | _ =>
      [("Toxic Fraction", .pnum 0), ("Expected Maximum Toxicity", .pnum 0),
       ("Toxicity Probability", .pnum 0)]

/-- Body of the toxicity `try` block after a successful scorer call; `none`
models an exception escaping inside the block (caught by the `except`). -/
def toxicityTryBody (out : ToxOut) (n : ℕ) : Option (List PyDict) :=
  let batch_toxicity_metrics := out.metrics
  let isTruthyDict := match out.data with | .pdict es => !es.isEmpty | _ => false
  if isTruthyDict then
    let per_item_scores :=
      match out.data with
      | .pdict es => dictGet es "scores" (.plist [])
      | _ => .plist []
    if per_item_scores.truthy then
      match pyLen? per_item_scores with
      | none => none
      | some m =>
          if m = n then some ((pyElems per_item_scores).map perItemToxDict)
          else some (List.replicate n batch_toxicity_metrics)
    else some (List.replicate n batch_toxicity_metrics)
  else some (List.replicate n batch_toxicity_metrics)

/-- The whole toxicity stage: one scorer call for the batch; any exception
(from the scorer or inside the block) degrades every item to
`defaultToxicityDict`. -/
def toxicityStage (env : ScorerEnv) (all_prompts all_responses : List String)
    (n : ℕ) : List PyDict :=
  match env.toxicity all_prompts all_responses with
  | .error _ => List.replicate n defaultToxicityDict
  | .ok out => (toxicityTryBody out n).getD (List.replicate n defaultToxicityDict)

/-! ## Grouping and stereotype stage (lines 354–394) -/

/-- Resolved category of a validated item. -/
def resolvedOf (it : VItem) : String := resolveCategory it.category

/-- The `category_groups` dictionary: insertion-ordered association list from
resolved category to the items of that category, built by one pass over the
validated items. -/
def category_groups (validated_items : List VItem) : List (String × List VItem) :=
  validated_items.foldl
    (fun acc it =>
      let c := resolvedOf it
      if (acc.find? (fun g => g.fst = c)).isSome then
        acc.map (fun g => if g.fst = c then (g.fst, g.snd ++ [it]) else g)
      else acc ++ [(c, [it])])
    []

/-- One stereotype scorer call for a group: the metrics dictionary on success,
the category-tagged zero dictionary when the scorer raises. -/
def stereoMetricsOf (env : ScorerEnv) (langfair_category : String)
    (group_responses : List String) : PyDict :=
  match env.stereotype group_responses langfair_category with
  | .ok m => m
  | .error _ => defaultStereotypeDict langfair_category

/-- The stereotype stage before sorting: for each group, one scorer call, then
one `(index, metrics, category)` triple per item of the group. -/
def stereotypeStage (env : ScorerEnv) (groups : List (String × List VItem)) :
    List (ℕ × PyDict × String) :=
  groups.foldl
    (fun acc g =>
      let metrics := stereoMetricsOf env g.fst (g.snd.map (fun it => it.user_response))
      acc ++ g.snd.map (fun it => (it.index, metrics, g.fst)))
    []

/-- Key order used by `stereotype_results.sort(key=lambda x: x[0])`. -/
def idxLE (a b : ℕ × PyDict × String) : Prop := a.fst ≤ b.fst

instance : DecidableRel idxLE := fun a b => Nat.decLe a.fst b.fst

instance : IsTotal (ℕ × PyDict × String) idxLE := ⟨fun a b => Nat.le_total a.fst b.fst⟩

instance : IsTrans (ℕ × PyDict × String) idxLE := ⟨fun _ _ _ => Nat.le_trans⟩

/-- `stereotype_results.sort(key=lambda x: x[0])` (indices are pairwise
distinct, so any sort by key produces the same list as Python's stable sort). -/
def sortByIdx (l : List (ℕ × PyDict × String)) : List (ℕ × PyDict × String) :=
  List.insertionSort idxLE l

/-! ## Counterfactual stage (lines 396–417, 437–471) -/

/-- `_evaluate_counterfactual_single`: never raises; a missing generator or
any exception in generation/comparison is caught and returned as the
item-scoped `(index, {"error": message})` marker. -/
def evaluate_counterfactual_single (env : ScorerEnv) (question_text : String)
    (langfair_category : String) (index : ℕ) : ℕ × PyDict :=
  match env.cfGen with
  | none => (index, [("error", .pstr "Counterfactual generator not available")])
  | some g =>
      match g question_text langfair_category with
      | .ok counterfactual_metrics => (index, counterfactual_metrics)
      | .error msg => (index, [("error", .pstr (msg.take 200))])

/-- Does `evaluate_batch` create a counterfactual task for this item?
(`include_counterfactual` truthy, raw lower-cased category `gender`/`race`,
generator available). -/
def cfTaskCond (env : ScorerEnv) (it : VItem) : Bool :=
  it.include_counterfactual
    && (pyLower it.category = "gender" || pyLower it.category = "race")
    && env.cfGen.isSome

/-- The counterfactual task created for one item, when the item qualifies. -/
def cfTaskOf (env : ScorerEnv) (it : VItem) : Option (ℕ × PyDict) :=
  if cfTaskCond env it then
    some (evaluate_counterfactual_single env it.question_text
      (resolveCategory it.category) it.index)
  else none

/-- The counterfactual dispatch: tasks for the opted-in items, gathered with
exception capture (the task function itself never raises, so every gathered
result is an `(index, dict)` pair and is written into the results array at its
index). -/
def cfStage (env : ScorerEnv) (validated_items : List VItem) : List (Option PyDict) :=
  let tasks := validated_items.filterMap (cfTaskOf env)
  tasks.foldl (fun acc r => acc.set r.fst (some r.snd))
    (List.replicate validated_items.length none)

/-! ## Result assembly (lines 419–435) and the orchestrator entry points -/

/-- The formatted metrics of one result; `counterfactual = none` renders the
empty `{}` placed when no counterfactual data is present. -/
structure EvalMetrics where
  toxicity : ToxicityScore
  stereotype : StereotypeScore
  counterfactual : Option CounterfactualScore
deriving DecidableEq, Repr

/-- One `EvaluationResult` dictionary. -/
structure EvalResult where
  success : Bool
  metrics : EvalMetrics
deriving DecidableEq, Repr

/-- Fallback result for `List.getD` (never read on in-bounds accesses). -/
def dResult : EvalResult :=
  ⟨false, ⟨⟨0, 0, 0⟩, ⟨0, 0, 0⟩, none⟩⟩

/-- `counterfactual` field of one assembled result:
`_format_counterfactual_metrics(cf) if cf else {}` where `cf` is the entry of
`counterfactual_results` (None or a dictionary). -/
def cfFieldOf (cf : Option PyDict) : Except PyErr (Option CounterfactualScore) :=
  match cf with
  | some m =>
      if m.isEmpty then .ok none
      else (format_counterfactual_metrics m).map some
  | none => .ok none

/-- One iteration of the assembly loop: item `i` is paired with the `i`-th
toxicity dictionary, the `i`-th (sorted) stereotype triple and the `i`-th
counterfactual slot; `success` is unconditionally `True`. -/
def assembleOne (validated_items : List VItem) (toxicity_results : List PyDict)
    (sorted_stereo : List (ℕ × PyDict × String)) (cf_results : List (Option PyDict))
    (i : ℕ) : Except PyErr EvalResult :=
  match cfFieldOf (cf_results.getD i none) with
  | .error e => .error e
  | .ok cfScore =>
      .ok { success := true
            metrics :=
              { toxicity := format_toxicity_metrics (toxicity_results.getD i [])
                stereotype :=
                  format_stereotype_metrics (sorted_stereo.getD i (0, [], "")).snd.fst
                    ((validated_items.getD i dVItem).category)
                counterfactual := cfScore } }

/-- The assembly loop over the positions in `idxs`. -/
def assembleGo (validated_items : List VItem) (toxicity_results : List PyDict)
    (sorted_stereo : List (ℕ × PyDict × String)) (cf_results : List (Option PyDict)) :
    List ℕ → Except PyErr (List EvalResult)
  | [] => .ok []
  | i :: rest =>
      match assembleOne validated_items toxicity_results sorted_stereo cf_results i with
      | .error e => .error e
      | .ok r =>
          match assembleGo validated_items toxicity_results sorted_stereo cf_results rest with
          | .error e => .error e
          | .ok rs => .ok (r :: rs)

/-- The pipeline run on already-validated items: toxicity for the whole batch,
stereotype per category group (then sorted back to index order),
counterfactual dispatch, assembly in original order. -/
def runPipeline (env : ScorerEnv) (validated_items : List VItem) :
    Except PyErr (List EvalResult) :=
  let toxicity_results := toxicityStage env
    (validated_items.map (fun it => it.question_text))
    (validated_items.map (fun it => it.user_response)) validated_items.length
  let sorted_stereo := sortByIdx (stereotypeStage env (category_groups validated_items))
  let counterfactual_results := cfStage env validated_items
  assembleGo validated_items toxicity_results sorted_stereo counterfactual_results
    (List.range validated_items.length)

/-- `LangFairEvaluator.evaluate_batch`: size guards (maximum 5, minimum 1),
validation, then the pipeline. -/
def evaluate_batch (env : ScorerEnv) (items : List BatchItem) :
    Except PyErr (List EvalResult) :=
  if items.length > 5 then
    .error (.valueError "Batch evaluation supports maximum 5 items")
  else if items.length = 0 then
    .error (.valueError "At least one item is required for batch evaluation")
  else
    match validateLoop 0 items with
    | .error e => .error e
    | .ok validated_items => runPipeline env validated_items

/-- `LangFairEvaluator.evaluate_response` (single item): blank-response guard,
one toxicity call and one stereotype call (each degrading to the zero
dictionary on exception), optional counterfactual for raw categories
`gender`/`race` when a generator exists, then formatting (which, as in the
batch path, raises `AttributeError` if a non-empty counterfactual error marker
must be formatted). -/
def evaluate_response (env : ScorerEnv) (question_text user_response category : String)
    (include_counterfactual : Bool) : Except PyErr EvalResult :=
  if stripIsEmpty user_response then
    .error (.valueError "user_response cannot be empty")
  else
    let toxicity_metrics :=
      match env.toxicity [question_text] [user_response] with
      | .ok out => out.metrics
      | .error _ => defaultToxicityDict
    let langfair_category := resolveCategory category
    let stereotype_metrics := stereoMetricsOf env langfair_category [user_response]
    let counterfactual_metrics : PyDict :=
      if include_counterfactual
          && (pyLower category = "gender" || pyLower category = "race") then
        match env.cfGen with
        | some g =>
            match g question_text langfair_category with
            | .ok m => m
            | .error msg => [("error", .pstr (msg.take 200))]
        | none => []
      else []
    match (if counterfactual_metrics.isEmpty then .ok none
           else (format_counterfactual_metrics counterfactual_metrics).map some :
            Except PyErr (Option CounterfactualScore)) with
    | .error e => .error e
    | .ok cfScore =>
        .ok { success := true
              metrics :=
                { toxicity := format_toxicity_metrics toxicity_metrics
                  stereotype := format_stereotype_metrics stereotype_metrics category
                  counterfactual := cfScore } }

/-! ## Worker protocol (`worker.py`)

The JSON (de)serialization itself is the standard library's; documents are
modelled as `Json` values, and `json.loads` as an `Except String Json`
parameter (its outcome on the process's standard input). -/

/-- A JSON document. -/
inductive Json where
  | null
  | jbool (b : Bool)
  | jnum (q : ℚ)
  | jstr (s : String)
  | jarr (elems : List Json)
  | jobj (fields : List (String × Json))

/-- Field lookup on a JSON object (`payload.get(k)`). -/
def jGet? (fields : List (String × Json)) (k : String) : Option Json :=
  (fields.find? (fun kv => kv.fst = k)).map Prod.snd

/-- `payload.get(k, dflt)`. -/
def jGet (fields : List (String × Json)) (k : String) (dflt : Json) : Json :=
  (jGet? fields k).getD dflt

/-- Python truthiness of a decoded JSON value. -/
def Json.truthy : Json → Bool
  | .null => false
  | .jbool b => b
  | .jnum q => decide (q ≠ 0)
  | .jstr s => !s.isEmpty
  | .jarr xs => !xs.isEmpty
  | .jobj fs => !fs.isEmpty

/-- `len(v)` on a decoded JSON value (TypeError for unsized values). -/
def jsonLen? : Json → Option ℕ
  | .jstr s => some s.length
  | .jarr xs => some xs.length
  | .jobj fs => some fs.length
  | _ => none

/-- Read one batch item out of its JSON dictionary, as the validation loop
does: `question_text`/`user_response` coerced to `""` unless strings,
`include_counterfactual` taken by truthiness.  A non-dictionary item raises
`AttributeError` at its first `.get`; a non-string `category` raises
`AttributeError` (the source only dereferences it with `.lower()` after
validation — the raise is modelled at decode time, the worker-visible outcome
is the same error response). -/
def itemOfJson : Json → Except PyErr BatchItem
  | .jobj fields =>
      let question_text :=
        match jGet fields "question_text" (.jstr "") with
        | .jstr s => s
        | _ => ""
      let user_response :=
        match jGet fields "user_response" (.jstr "") with
        | .jstr s => s
        | _ => ""
      let include_counterfactual :=
        (jGet fields "include_counterfactual" (.jbool false)).truthy
      match jGet fields "category" (.jstr "general") with
      | .jstr category =>
          .ok ⟨question_text, user_response, category, include_counterfactual⟩
      | _ => .error .attributeError
  | _ => .error .attributeError

/-- The validation loop over JSON items: per item, field extraction then the
blank-response check, in input order. -/
def decodeValidateLoop (i : ℕ) : List Json → Except PyErr (List VItem)
  | [] => .ok []
  | j :: rest =>
      match itemOfJson j with
      | .error e => .error e
      | .ok item =>
          if stripIsEmpty item.user_response then
            .error (.valueError ("Item " ++ toString i ++ ": user_response cannot be empty"))
          else
            match decodeValidateLoop (i + 1) rest with
            | .ok tail =>
                .ok (⟨item.question_text, item.user_response, item.category,
                      item.include_counterfactual, i⟩ :: tail)
            | .error e => .error e

/-- `evaluate_batch` as reached from the worker: the argument is whatever the
payload's `items` field decoded to.  The size guards run on `len(items)`
first; a sized non-list value then fails at the first item's `.get`. -/
def evaluate_batch_json (env : ScorerEnv) (itemsJson : Json) :
    Except PyErr (List EvalResult) :=
  match jsonLen? itemsJson with
  | none => .error .typeError
  | some n =>
      if n > 5 then
        .error (.valueError "Batch evaluation supports maximum 5 items")
      else if n = 0 then
        .error (.valueError "At least one item is required for batch evaluation")
      else
        match itemsJson with
        | .jarr xs =>
            match decodeValidateLoop 0 xs with
            | .error e => .error e
            | .ok validated_items => runPipeline env validated_items
        | _ => .error .attributeError

/-- JSON rendering of one result dictionary (`json.dumps` level structure). -/
def evalResultJson (r : EvalResult) : Json :=
  .jobj [("success", .jbool r.success),
    ("metrics", .jobj
      [("toxicity", .jobj
        [("toxic_fraction", .jnum r.metrics.toxicity.toxic_fraction),
         ("expected_max_toxicity", .jnum r.metrics.toxicity.expected_max_toxicity),
         ("toxicity_probability", .jnum r.metrics.toxicity.toxicity_probability)]),
       ("stereotype", .jobj
        [("stereotype_association", .jnum r.metrics.stereotype.stereotype_association),
         ("cooccurrence_bias", .jnum r.metrics.stereotype.cooccurrence_bias),
         ("stereotype_fraction", .jnum r.metrics.stereotype.stereotype_fraction)]),
       ("counterfactual",
        match r.metrics.counterfactual with
        | none => .jobj []
        | some c => .jobj
            [("cosine_similarity", .jnum c.cosine_similarity),
             ("rouge_similarity", .jnum c.rouge_similarity),
             ("bleu_similarity", .jnum c.bleu_similarity),
             ("sentiment_bias", .jnum c.sentiment_bias)])])]

/-- `worker.run_evaluation`: batch payloads go to `evaluate_batch` and wrap
the results as `{"success": true, "results": [...]}`; any other payload goes
to `evaluate_response` (without counterfactual) and wraps as
`{"success": true, "result": ...}`. -/
def run_evaluation (env : ScorerEnv) (payload : Json) : Except PyErr Json :=
  match payload with
  | .jobj fields =>
      let isBatch : Bool :=
        match jGet fields "type" .null with
        | .jstr s => s = "batch"
        | _ => false
      if isBatch then
        match evaluate_batch_json env (jGet fields "items" (.jarr [])) with
        | .error e => .error e
        | .ok results =>
            .ok (.jobj [("success", .jbool true),
              ("results", .jarr (results.map evalResultJson))])
      else
        let question_text :=
          match jGet fields "question_text" (.jstr "") with
          | .jstr s => s | _ => ""
        let user_response :=
          match jGet fields "user_response" (.jstr "") with
          | .jstr s => s | _ => ""
        match jGet fields "category" (.jstr "general") with
        | .jstr category =>
            match evaluate_response env question_text user_response category false with
            | .error e => .error e
            | .ok r =>
                .ok (.jobj [("success", .jbool true), ("result", evalResultJson r)])
        | _ => .error .attributeError
  | _ => .error .attributeError

/-- `str(e)` for the exceptions of this embedding. -/
def PyErr.message : PyErr → String
  | .valueError msg => msg
  | .attributeError => "AttributeError"
  | .typeError => "TypeError"

/-- What one worker run leaves behind: the single JSON document printed to
standard output and the process exit code. -/
structure WorkerOutput where
  stdout : Json
  exitCode : ℕ

/-! ## Specification-level descriptions of the pipeline outcome

These definitions restate, item by item, what the pipeline stages deliver;
the lemmas and claim theorems below relate `evaluate_batch` to them. -/

/-- Fallback `BatchItem` for `List.getD`. -/
def dBatchItem : BatchItem := ⟨"", "", "", false⟩

/-- The validated items produced for a blank-free input list, indices starting
at `k`. -/
def vitemsFrom : ℕ → List BatchItem → List VItem
  | _, [] => []
  | k, it :: rest =>
      ⟨it.question_text, it.user_response, it.category, it.include_counterfactual, k⟩ ::
        vitemsFrom (k + 1) rest

/-- The validated items of a blank-free batch. -/
def vitemsOf (items : List BatchItem) : List VItem := vitemsFrom 0 items

/-- The toxicity dictionaries of the batch, one per item in input order. -/
def toxDictsFor (env : ScorerEnv) (items : List BatchItem) : List PyDict :=
  toxicityStage env (items.map (fun it => it.question_text))
    (items.map (fun it => it.user_response)) items.length

/-- The user responses of the category group item `i` belongs to, in input
order. -/
def groupResponsesFor (items : List BatchItem) (i : ℕ) : List String :=
  ((items.filter (fun it =>
      resolveCategory it.category = resolveCategory ((items.getD i dBatchItem).category))).map
    (fun it => it.user_response))

/-- The raw stereotype dictionary item `i` is assembled from: the scorer's
output for item `i`'s category group, or the category-tagged zero dictionary
when that group's call raised. -/
def stereoRawFor (env : ScorerEnv) (items : List BatchItem) (i : ℕ) : PyDict :=
  stereoMetricsOf env (resolveCategory ((items.getD i dBatchItem).category))
    (groupResponsesFor items i)

/-- The counterfactual slot of item `i`: the dictionary the dispatched task
returned when one was created for the item (opt-in, raw category
`gender`/`race`, generator present), absent otherwise. -/
def cfDictForItem (env : ScorerEnv) (items : List BatchItem) (i : ℕ) : Option PyDict :=
  let it := items.getD i dBatchItem
  if it.include_counterfactual
      && (pyLower it.category = "gender" || pyLower it.category = "race")
      && env.cfGen.isSome then
    some (evaluate_counterfactual_single env it.question_text
      (resolveCategory it.category) i).snd
  else none

/-! ## Lemmas: validation -/

theorem vitemsFrom_length (k : ℕ) (items : List BatchItem) :
    (vitemsFrom k items).length = items.length := by
  induction items generalizing k with
  | nil => rfl
  | cons it rest ih => simp [vitemsFrom, ih]

theorem vitemsFrom_map_index (k : ℕ) (items : List BatchItem) :
    (vitemsFrom k items).map (fun it => it.index) = List.range' k items.length := by
  induction items generalizing k with
  | nil => rfl
  | cons it rest ih => simp [vitemsFrom, List.range'_succ, ih]

theorem vitemsFrom_getD (k i : ℕ) (items : List BatchItem) (hi : i < items.length) :
    (vitemsFrom k items).getD i dVItem =
      ⟨(items.getD i dBatchItem).question_text, (items.getD i dBatchItem).user_response,
       (items.getD i dBatchItem).category, (items.getD i dBatchItem).include_counterfactual,
       k + i⟩ := by
  induction items generalizing k i with
  | nil => simp at hi
  | cons it rest ih =>
      cases i with
      | zero => simp [vitemsFrom]
      | succ j =>
          have hj : j < rest.length := by simpa using hi
          simpa [vitemsFrom, Nat.add_assoc, Nat.add_comm 1 j] using ih (k + 1) j hj

theorem vitemsFrom_map_question (k : ℕ) (items : List BatchItem) :
    (vitemsFrom k items).map (fun it => it.question_text) =
      items.map (fun it => it.question_text) := by
  induction items generalizing k with
  | nil => rfl
  | cons it rest ih => simp [vitemsFrom, ih]

theorem vitemsFrom_map_response (k : ℕ) (items : List BatchItem) :
    (vitemsFrom k items).map (fun it => it.user_response) =
      items.map (fun it => it.user_response) := by
  induction items generalizing k with
  | nil => rfl
  | cons it rest ih => simp [vitemsFrom, ih]

theorem validateLoop_ok_of_no_blank (k : ℕ) (items : List BatchItem)
    (h : ∀ it ∈ items, stripIsEmpty it.user_response = false) :
    validateLoop k items = .ok (vitemsFrom k items) := by
  induction items generalizing k with
  | nil => rfl
  | cons it rest ih =>
      have hit : stripIsEmpty it.user_response = false := h it (by simp)
      have hrest : ∀ it' ∈ rest, stripIsEmpty it'.user_response = false :=
        fun it' h' => h it' (by simp [h'])
      simp [validateLoop, hit, ih (k + 1) hrest, vitemsFrom]

theorem validateLoop_ok_inv (k : ℕ) (items : List BatchItem) (v : List VItem)
    (h : validateLoop k items = .ok v) :
    (∀ it ∈ items, stripIsEmpty it.user_response = false) ∧ v = vitemsFrom k items := by
  induction items generalizing k v with
  | nil =>
      simp only [validateLoop] at h
      cases h
      exact ⟨by simp, rfl⟩
  | cons it rest ih =>
      simp only [validateLoop] at h
      by_cases hb : stripIsEmpty it.user_response
      · simp [hb] at h
      · simp only [hb, if_false, Bool.false_eq_true] at h
        cases htail : validateLoop (k + 1) rest with
        | error e => rw [htail] at h; cases h
        | ok tail =>
            rw [htail] at h
            cases h
            obtain ⟨hall, htl⟩ := ih (k + 1) tail htail
            refine ⟨?_, by simp [vitemsFrom, htl]⟩
            intro it' hmem
            rw [List.mem_cons] at hmem
            rcases hmem with rfl | hmem
            · simpa using hb
            · exact hall it' hmem

theorem validateLoop_error_of_blank (k : ℕ) (items : List BatchItem)
    (h : (items.findIdx (fun it => stripIsEmpty it.user_response)) < items.length) :
    validateLoop k items =
      .error (.valueError ("Item " ++
        toString (k + items.findIdx (fun it => stripIsEmpty it.user_response)) ++
        ": user_response cannot be empty")) := by
  induction items generalizing k with
  | nil => simp at h
  | cons it rest ih =>
      by_cases hb : stripIsEmpty it.user_response
      · simp [validateLoop, hb, List.findIdx_cons]
      · have hfi : (it :: rest).findIdx (fun it => stripIsEmpty it.user_response) =
            (rest.findIdx (fun it => stripIsEmpty it.user_response)) + 1 := by
          simp [List.findIdx_cons, hb]
        have hlt : (rest.findIdx (fun it => stripIsEmpty it.user_response)) < rest.length := by
          rw [hfi] at h
          simpa using h
        have := ih (k + 1) hlt
        simp only [validateLoop, hb, if_false, Bool.false_eq_true, this, hfi]
        have harith : k + 1 + rest.findIdx (fun it => stripIsEmpty it.user_response) =
            k + (rest.findIdx (fun it => stripIsEmpty it.user_response) + 1) := by omega
        rw [harith]

/-! ## Lemmas: grouping -/

/-- The distinct values of `l`, in order of first occurrence (the key order of
a Python dictionary filled by one pass over `l`). -/
def firstSeen (l : List String) : List String :=
  l.foldl (fun acc c => if c ∈ acc then acc else acc ++ [c]) []

/-- Position of the first occurrence of `a` in `l`. -/
def firstPos (a : String) (l : List String) : ℕ :=
  l.findIdx (fun x => x = a)

theorem firstSeen_append_singleton (l : List String) (c : String) :
    firstSeen (l ++ [c]) =
      if c ∈ firstSeen l then firstSeen l else firstSeen l ++ [c] := by
  simp [firstSeen, List.foldl_append]

theorem mem_firstSeen (l : List String) : ∀ a, a ∈ firstSeen l ↔ a ∈ l := by
  induction l using List.reverseRecOn with
  | nil => intro a; simp [firstSeen]
  | append_singleton l c ih =>
      intro a
      rw [firstSeen_append_singleton]
      by_cases hc : c ∈ firstSeen l
      · have hcl : c ∈ l := (ih c).mp hc
        simp only [hc, if_true, List.mem_append, List.mem_singleton, ih a]
        constructor
        · exact fun h => Or.inl h
        · rintro (h | rfl)
          · exact h
          · exact hcl
      · simp [hc, List.mem_append, ih a]

theorem firstSeen_nodup (l : List String) : (firstSeen l).Nodup := by
  induction l using List.reverseRecOn with
  | nil => simp [firstSeen]
  | append_singleton l c ih =>
      rw [firstSeen_append_singleton]
      by_cases hc : c ∈ firstSeen l
      · simpa [hc] using ih
      · simp [hc, List.nodup_append, ih]

theorem firstPos_append_left (a : String) (l l' : List String) (h : a ∈ l) :
    firstPos a (l ++ l') = firstPos a l := by
  have hlt : l.findIdx (fun x => x = a) < l.length :=
    List.findIdx_lt_length_of_exists ⟨a, h, by simp⟩
  simp [firstPos, List.findIdx_append, hlt]

theorem firstPos_append_singleton_self (a : String) (l : List String) (h : a ∉ l) :
    firstPos a (l ++ [a]) = l.length := by
  have hlen : l.findIdx (fun x => x = a) = l.length :=
    List.findIdx_eq_length_of_false (fun x hx => by
      simp only [decide_eq_false_iff_not]
      intro hxa
      exact h (hxa ▸ hx))
  simp [firstPos, List.findIdx_append, hlen, List.findIdx_cons]

theorem firstPos_lt_length (a : String) (l : List String) (h : a ∈ l) :
    firstPos a l < l.length :=
  List.findIdx_lt_length_of_exists ⟨a, h, by simp⟩

theorem firstSeen_pairwise_firstPos (l : List String) :
    (firstSeen l).Pairwise (fun a b => firstPos a l < firstPos b l) := by
  induction l using List.reverseRecOn with
  | nil => simp [firstSeen]
  | append_singleton l c ih =>
      rw [firstSeen_append_singleton]
      by_cases hc : c ∈ firstSeen l
      · simp only [hc, if_true]
        refine List.Pairwise.imp_of_mem ?_ ih
        intro a b ha hb hlt
        rw [firstPos_append_left a l [c] ((mem_firstSeen l a).mp ha),
            firstPos_append_left b l [c] ((mem_firstSeen l b).mp hb)]
        exact hlt
      · simp only [hc, if_false]
        rw [List.pairwise_append]
        refine ⟨?_, by simp, ?_⟩
        · refine List.Pairwise.imp_of_mem ?_ ih
          intro a b ha hb hlt
          rw [firstPos_append_left a l [c] ((mem_firstSeen l a).mp ha),
              firstPos_append_left b l [c] ((mem_firstSeen l b).mp hb)]
          exact hlt
        · intro a ha b hb
          rw [List.mem_singleton] at hb
          subst hb
          have hal : a ∈ l := (mem_firstSeen l a).mp ha
          have hcl : b ∉ l := fun h => hc ((mem_firstSeen l b).mpr h)
          rw [firstPos_append_left a l [b] hal, firstPos_append_singleton_self b l hcl]
          exact firstPos_lt_length a l hal

/-- Specification form of `category_groups`: one group per first-seen resolved
category, holding the items of that category in input order. -/
def groupsSpec (l : List VItem) : List (String × List VItem) :=
  (firstSeen (l.map resolvedOf)).map
    (fun c => (c, l.filter (fun it => resolvedOf it = c)))

theorem category_groups_append_singleton (l : List VItem) (it : VItem) :
    category_groups (l ++ [it]) =
      (if ((category_groups l).find? (fun g => g.fst = resolvedOf it)).isSome then
        (category_groups l).map
          (fun g => if g.fst = resolvedOf it then (g.fst, g.snd ++ [it]) else g)
      else category_groups l ++ [(resolvedOf it, [it])]) := by
  simp [category_groups, List.foldl_append]

theorem groupsSpec_map_fst (l : List VItem) :
    (groupsSpec l).map Prod.fst = firstSeen (l.map resolvedOf) := by
  simp [groupsSpec, List.map_map, Function.comp_def]

theorem category_groups_eq_groupsSpec (l : List VItem) :
    category_groups l = groupsSpec l := by
  induction l using List.reverseRecOn with
  | nil => rfl
  | append_singleton l it ih =>
      rw [category_groups_append_singleton, ih]
      have hfind : ((groupsSpec l).find? (fun g => g.fst = resolvedOf it)).isSome ↔
          resolvedOf it ∈ firstSeen (l.map resolvedOf) := by
        rw [List.find?_isSome, ← groupsSpec_map_fst l]
        constructor
        · rintro ⟨g, hg, hfst⟩
          rw [List.mem_map]
          exact ⟨g, hg, by simpa using hfst⟩
        · intro h
          rw [List.mem_map] at h
          obtain ⟨g, hg, hfst⟩ := h
          exact ⟨g, hg, by simp [hfst]⟩
      by_cases hmem : resolvedOf it ∈ firstSeen (l.map resolvedOf)
      · rw [if_pos (hfind.mpr hmem)]
        unfold groupsSpec
        rw [show (l ++ [it]).map resolvedOf = l.map resolvedOf ++ [resolvedOf it] by simp,
            firstSeen_append_singleton, if_pos hmem, List.map_map]
        refine List.map_congr_left ?_
        intro c _
        simp only [Function.comp]
        by_cases hcc : c = resolvedOf it
        · subst hcc
          simp [List.filter_append]
        · have : ¬ (resolvedOf it = c) := fun h => hcc h.symm
          simp [hcc, List.filter_append, this]
      · rw [if_neg (by rw [hfind]; exact hmem)]
        unfold groupsSpec
        rw [show (l ++ [it]).map resolvedOf = l.map resolvedOf ++ [resolvedOf it] by simp,
            firstSeen_append_singleton, if_neg hmem, List.map_append]
        congr 1
        · refine List.map_congr_left ?_
          intro c hcmem
          have hcc : ¬ (resolvedOf it = c) := by
            intro h
            exact hmem (h ▸ hcmem)
          simp [List.filter_append, hcc]
        · have hfilter : l.filter (fun it' => resolvedOf it' = resolvedOf it) = [] := by
            rw [List.filter_eq_nil_iff]
            intro it' hit'
            simp only [decide_eq_true_eq]
            intro h
            exact hmem ((mem_firstSeen _ _).mpr (List.mem_map.mpr ⟨it', hit', h⟩))
          simp [List.filter_append, hfilter]

theorem category_groups_map_fst (l : List VItem) :
    (category_groups l).map Prod.fst = firstSeen (l.map resolvedOf) := by
  rw [category_groups_eq_groupsSpec, groupsSpec_map_fst]

theorem mem_category_groups (l : List VItem) (c : String) (ms : List VItem)
    (h : (c, ms) ∈ category_groups l) :
    ms = l.filter (fun it => resolvedOf it = c) := by
  rw [category_groups_eq_groupsSpec, groupsSpec, List.mem_map] at h
  obtain ⟨c', _, heq⟩ := h
  obtain ⟨h1, h2⟩ := Prod.mk.injEq .. ▸ heq
  exact h2 ▸ h1 ▸ rfl

/-- Partition permutation: flattening the per-key filters over a duplicate-free
covering key list permutes back to the original list. -/
theorem flatMap_filter_key_perm {α : Type} (key : α → String) :
    ∀ (ks : List String) (l : List α), ks.Nodup → (∀ x ∈ l, key x ∈ ks) →
      (ks.flatMap (fun c => l.filter (fun x => key x = c))).Perm l := by
  intro ks
  induction ks with
  | nil =>
      intro l _ hcov
      have hl : l = [] := by
        cases l with
        | nil => rfl
        | cons x xs => exact absurd (hcov x (by simp)) (by simp)
      simp [hl]
  | cons c ks ih =>
      intro l hnodup hcov
      rw [List.flatMap_cons]
      have hc_not : c ∉ ks := (List.nodup_cons.mp hnodup).1
      have hstep : ∀ c' ∈ ks, l.filter (fun x => key x = c') =
          (l.filter (fun x => !(decide (key x = c)))).filter (fun x => key x = c') := by
        intro c' hc'
        rw [List.filter_filter]
        refine (List.filter_congr ?_).symm
        intro x _
        by_cases hx : key x = c'
        · have hxc : ¬ (key x = c) := by
            intro h
            have hcc : c = c' := h.symm.trans hx
            subst hcc
            exact hc_not hc'
          have hne : ¬ (c' = c) := fun h => hxc (hx.trans h)
          simp [hx, hne]
        · simp [hx]
      have hcongr : ks.flatMap (fun c' => l.filter (fun x => key x = c')) =
          ks.flatMap (fun c' =>
            (l.filter (fun x => !(decide (key x = c)))).filter (fun x => key x = c')) := by
        unfold List.flatMap
        exact congrArg List.flatten (List.map_congr_left hstep)
      rw [hcongr]
      have hcov' : ∀ x ∈ l.filter (fun x => !(decide (key x = c))), key x ∈ ks := by
        intro x hx
        obtain ⟨hxl, hxc⟩ := List.mem_filter.mp hx
        have hmem := hcov x hxl
        rw [List.mem_cons] at hmem
        rcases hmem with h | h
        · exact absurd h (by simpa using hxc)
        · exact h
      have hperm' := ih (l.filter (fun x => !(decide (key x = c))))
        (List.nodup_cons.mp hnodup).2 hcov'
      exact (hperm'.append_left _).trans (List.filter_append_perm _ l)

/-- The `(index, metrics, category)` triple contributed by item `it` of group
`g`: the shape of every entry appended by the stereotype stage. -/
def stereoTripleOf (env : ScorerEnv) (g : String × List VItem) (it : VItem) :
    ℕ × PyDict × String :=
  (it.index, stereoMetricsOf env g.fst (g.snd.map (fun x => x.user_response)), g.fst)

theorem stereotypeStage_eq_flatMap (env : ScorerEnv) (groups : List (String × List VItem)) :
    stereotypeStage env groups =
      groups.flatMap (fun g => g.snd.map (stereoTripleOf env g)) := by
  suffices h : ∀ acc : List (ℕ × PyDict × String),
      groups.foldl
        (fun acc g =>
          let metrics := stereoMetricsOf env g.fst (g.snd.map (fun it => it.user_response))
          acc ++ g.snd.map (fun it => (it.index, metrics, g.fst))) acc =
        acc ++ groups.flatMap (fun g => g.snd.map (stereoTripleOf env g)) by
    simpa [stereotypeStage] using h []
  induction groups with
  | nil => intro acc; simp
  | cons g gs ih =>
      intro acc
      simp only [List.foldl_cons, List.flatMap_cons, ih, List.append_assoc]
      rfl

theorem category_groups_flatMap_perm (l : List VItem) :
    ((category_groups l).flatMap Prod.snd).Perm l := by
  rw [category_groups_eq_groupsSpec]
  have heq : (groupsSpec l).flatMap Prod.snd =
      (firstSeen (l.map resolvedOf)).flatMap
        (fun c => l.filter (fun it => resolvedOf it = c)) := by
    unfold groupsSpec List.flatMap
    rw [List.map_map]
    rfl
  rw [heq]
  exact flatMap_filter_key_perm resolvedOf _ l (firstSeen_nodup _)
    (fun it hit => (mem_firstSeen _ _).mpr (List.mem_map.mpr ⟨it, hit, rfl⟩))

theorem stereoTriple_mem (env : ScorerEnv) (l : List VItem) (it : VItem) (hit : it ∈ l) :
    (it.index,
      stereoMetricsOf env (resolvedOf it)
        ((l.filter (fun x => resolvedOf x = resolvedOf it)).map (fun x => x.user_response)),
      resolvedOf it) ∈ stereotypeStage env (category_groups l) := by
  rw [stereotypeStage_eq_flatMap, List.mem_flatMap]
  refine ⟨(resolvedOf it, l.filter (fun x => resolvedOf x = resolvedOf it)), ?_, ?_⟩
  · rw [category_groups_eq_groupsSpec, groupsSpec, List.mem_map]
    exact ⟨resolvedOf it,
      (mem_firstSeen _ _).mpr (List.mem_map.mpr ⟨it, hit, rfl⟩), rfl⟩
  · rw [List.mem_map]
    exact ⟨it, List.mem_filter.mpr ⟨hit, by simp⟩, rfl⟩

theorem stereotypeStage_map_fst (env : ScorerEnv) (groups : List (String × List VItem)) :
    (stereotypeStage env groups).map Prod.fst =
      (groups.flatMap Prod.snd).map (fun it => it.index) := by
  rw [stereotypeStage_eq_flatMap]
  simp [List.map_flatMap, List.map_map, Function.comp_def, stereoTripleOf]

/-! ## Lemmas: sorting back to index order -/

/-- Sorting by key, when the keys are exactly `0..n-1`, puts the (unique)
entry with key `i` at position `i`. -/
theorem sortByIdx_getD (l : List (ℕ × PyDict × String)) (n i : ℕ)
    (x : ℕ × PyDict × String) (hperm : (l.map Prod.fst).Perm (List.range n))
    (hi : i < n) (hx : x ∈ l) (hkey : x.fst = i) :
    (sortByIdx l).getD i (0, [], "") = x := by
  have hs : List.Sorted idxLE (sortByIdx l) := List.sorted_insertionSort idxLE l
  have hps : (sortByIdx l).Perm l := List.perm_insertionSort idxLE l
  have hkeys_perm : ((sortByIdx l).map Prod.fst).Perm (List.range n) :=
    (hps.map Prod.fst).trans hperm
  have hsorted_keys : List.Sorted (· ≤ ·) ((sortByIdx l).map Prod.fst) :=
    List.Pairwise.map Prod.fst (fun _ _ hab => hab) hs
  have hkeys : (sortByIdx l).map Prod.fst = List.range n :=
    List.eq_of_perm_of_sorted hkeys_perm hsorted_keys (List.sorted_le_range n)
  have hlen : (sortByIdx l).length = n := by
    have hmaplen := congrArg List.length hkeys
    simpa using hmaplen
  have hi' : i < (sortByIdx l).length := hlen ▸ hi
  have hnodup : (l.map Prod.fst).Nodup := hperm.nodup_iff.mpr (List.nodup_range n)
  have hget_fst : ((sortByIdx l).getD i (0, [], "")).fst = i := by
    have hmap : ((sortByIdx l).map Prod.fst)[i]? = some i := by
      rw [hkeys]
      simp [hi]
    rw [List.getElem?_map, List.getElem?_eq_getElem hi'] at hmap
    rw [List.getD_eq_getElem _ _ hi']
    simpa using hmap
  have hmem : (sortByIdx l).getD i (0, [], "") ∈ l := by
    rw [List.getD_eq_getElem _ _ hi']
    exact hps.mem_iff.mp (List.getElem_mem hi')
  exact List.inj_on_of_nodup_map hnodup hmem hx (by rw [hget_fst, hkey])

/-! ## Lemmas: the counterfactual results array -/

theorem evaluate_counterfactual_single_fst (env : ScorerEnv) (q c : String) (i : ℕ) :
    (evaluate_counterfactual_single env q c i).fst = i := by
  unfold evaluate_counterfactual_single
  cases henv : env.cfGen with
  | none => simp
  | some g =>
      cases hg : g q c with
      | ok m => simp [hg]
      | error msg => simp [hg]

theorem cfTaskOf_fst (env : ScorerEnv) (it : VItem) (r : ℕ × PyDict)
    (h : cfTaskOf env it = some r) : r.fst = it.index := by
  unfold cfTaskOf at h
  by_cases hc : cfTaskCond env it
  · rw [if_pos hc] at h
    cases h
    exact evaluate_counterfactual_single_fst env it.question_text
      (resolveCategory it.category) it.index
  · rw [if_neg hc] at h
    cases h

theorem cfTasks_map_fst_sublist (env : ScorerEnv) (l : List VItem) :
    ((l.filterMap (cfTaskOf env)).map Prod.fst).Sublist (l.map (fun it => it.index)) := by
  induction l with
  | nil => simp
  | cons it rest ih =>
      cases htask : cfTaskOf env it with
      | none =>
          simp only [List.filterMap_cons, htask, List.map_cons]
          exact ih.cons it.index
      | some r =>
          have hfst : r.fst = it.index := cfTaskOf_fst env it r htask
          simp only [List.filterMap_cons, htask, List.map_cons, hfst]
          exact ih.cons₂ it.index

theorem find?_key_eq_of_nodup {A : Type} (tasks : List (ℕ × A))
    (hnodup : (tasks.map Prod.fst).Nodup) (r : ℕ × A) (hr : r ∈ tasks) :
    tasks.find? (fun t => t.fst = r.fst) = some r := by
  induction tasks with
  | nil => simp at hr
  | cons t rest ih =>
      rw [List.mem_cons] at hr
      rcases hr with rfl | hr
      · simp [List.find?_cons]
      · have hne : ¬ (t.fst = r.fst) := by
          intro h
          have hmem : t.fst ∈ rest.map Prod.fst := h ▸ List.mem_map_of_mem Prod.fst hr
          exact (List.nodup_cons.mp (by simpa using hnodup)).1 hmem
        have ihr := ih (List.nodup_cons.mp (by simpa using hnodup)).2 hr
        simp [List.find?_cons, hne, ihr]

theorem foldl_set_getD {A : Type} (tasks : List (ℕ × A)) :
    ∀ (init : List (Option A)) (i : ℕ), i < init.length →
      (tasks.map Prod.fst).Nodup →
      (tasks.foldl (fun acc r => acc.set r.fst (some r.snd)) init).getD i none =
        (match tasks.find? (fun r => r.fst = i) with
         | some r => some r.snd
         | none => init.getD i none) := by
  induction tasks with
  | nil => intro init i hi _; simp
  | cons t rest ih =>
      intro init i hi hnodup
      simp only [List.foldl_cons]
      have hlen : (init.set t.fst (some t.snd)).length = init.length := by simp
      have hrec := ih (init.set t.fst (some t.snd)) i (by rw [hlen]; exact hi)
        (List.nodup_cons.mp (by simpa using hnodup)).2
      rw [hrec]
      by_cases hti : t.fst = i
      · have hfind_rest : rest.find? (fun r => r.fst = i) = none := by
          rw [List.find?_eq_none]
          intro r hr
          simp only [decide_eq_true_eq]
          intro hri
          have hmem : t.fst ∈ rest.map Prod.fst :=
            hti ▸ hri ▸ List.mem_map_of_mem Prod.fst hr
          exact (List.nodup_cons.mp (by simpa using hnodup)).1 hmem
        rw [hfind_rest]
        have hfind_cons : (t :: rest).find? (fun r => r.fst = i) = some t := by
          simp [List.find?_cons, hti]
        rw [hfind_cons]
        subst hti
        rw [List.getD_eq_getElem _ _ (by simpa using hi)]
        simp
      · have hfind_cons : (t :: rest).find? (fun r => r.fst = i) =
            rest.find? (fun r => r.fst = i) := by
          simp [List.find?_cons, hti]
        rw [hfind_cons]
        cases hfr : rest.find? (fun r => r.fst = i) with
        | some r => simp
        | none =>
            rw [List.getD_eq_getElem _ _ (by simpa using hi),
                List.getD_eq_getElem _ _ hi]
            simp [List.getElem_set_ne hti]

/-- The counterfactual slot of position `i` is exactly the outcome of item
`i`'s own task (or absent), provided the items carry indices `0..n-1`. -/
theorem cfStage_getD (env : ScorerEnv) (l : List VItem) (n i : ℕ)
    (hn : l.length = n) (hmap : l.map (fun it => it.index) = List.range n) (hi : i < n) :
    (cfStage env l).getD i none = (cfTaskOf env (l.getD i dVItem)).map Prod.snd := by
  have hil : i < l.length := hn ▸ hi
  have hnodup_idx : (l.map (fun it => it.index)).Nodup := by
    rw [hmap]; exact List.nodup_range n
  have hnodup_tasks : ((l.filterMap (cfTaskOf env)).map Prod.fst).Nodup :=
    (cfTasks_map_fst_sublist env l).nodup hnodup_idx
  have hinit : i < (List.replicate l.length (none : Option PyDict)).length := by
    simpa using hil
  have hmem_getD : l.getD i dVItem ∈ l := by
    rw [List.getD_eq_getElem _ _ hil]
    exact List.getElem_mem hil
  have hidx : (l.getD i dVItem).index = i := by
    have h1 : (l.map (fun it => it.index))[i]? = some i := by
      rw [hmap]
      simp [hi]
    rw [List.getElem?_map, List.getElem?_eq_getElem hil] at h1
    rw [List.getD_eq_getElem _ _ hil]
    simpa using h1
  unfold cfStage
  rw [foldl_set_getD (l.filterMap (cfTaskOf env)) (List.replicate l.length none) i hinit
    hnodup_tasks]
  cases htask : cfTaskOf env (l.getD i dVItem) with
  | some r =>
      have hrmem : r ∈ l.filterMap (cfTaskOf env) :=
        List.mem_filterMap.mpr ⟨l.getD i dVItem, hmem_getD, htask⟩
      have hrfst : r.fst = i := (cfTaskOf_fst env _ r htask).trans hidx
      have hfind := find?_key_eq_of_nodup (l.filterMap (cfTaskOf env)) hnodup_tasks r hrmem
      rw [hrfst] at hfind
      rw [hfind]
      rfl
  | none =>
      have hfind : (l.filterMap (cfTaskOf env)).find? (fun r => r.fst = i) = none := by
        rw [List.find?_eq_none]
        intro t ht
        simp only [decide_eq_true_eq]
        intro hti
        obtain ⟨it', hit', htask'⟩ := List.mem_filterMap.mp ht
        have hidx' : it'.index = i := (cfTaskOf_fst env it' t htask').symm ▸ hti
        have heq : it' = l.getD i dVItem :=
          List.inj_on_of_nodup_map hnodup_idx hit' hmem_getD (by rw [hidx', hidx])
        rw [heq, htask] at htask'
        cases htask'
      rw [hfind]
      simp

/-! ## Lemmas: assembly -/

theorem assembleGo_ok_spec (v : List VItem) (toxs : List PyDict)
    (sts : List (ℕ × PyDict × String)) (cfs : List (Option PyDict)) :
    ∀ (idxs : List ℕ) (rs : List EvalResult),
      assembleGo v toxs sts cfs idxs = .ok rs →
      rs.length = idxs.length ∧
        ∀ j, j < idxs.length →
          assembleOne v toxs sts cfs (idxs.getD j 0) = .ok (rs.getD j dResult) := by
  intro idxs
  induction idxs with
  | nil =>
      intro rs h
      simp only [assembleGo] at h
      cases h
      exact ⟨rfl, by intro j hj; simp at hj⟩
  | cons i rest ih =>
      intro rs h
      simp only [assembleGo] at h
      cases hone : assembleOne v toxs sts cfs i with
      | error e => rw [hone] at h; cases h
      | ok r =>
          rw [hone] at h
          cases hrest : assembleGo v toxs sts cfs rest with
          | error e => rw [hrest] at h; cases h
          | ok rs' =>
              rw [hrest] at h
              cases h
              obtain ⟨hlen, hpt⟩ := ih rs' hrest
              refine ⟨by simp [hlen], ?_⟩
              intro j hj
              cases j with
              | zero => simpa using hone
              | succ j' =>
                  have hj' : j' < rest.length := by simpa using hj
                  simpa using hpt j' hj'

theorem assembleGo_ok_of_forall (v : List VItem) (toxs : List PyDict)
    (sts : List (ℕ × PyDict × String)) (cfs : List (Option PyDict)) :
    ∀ idxs : List ℕ,
      (∀ i ∈ idxs, ∃ r, assembleOne v toxs sts cfs i = .ok r) →
      ∃ rs, assembleGo v toxs sts cfs idxs = .ok rs := by
  intro idxs
  induction idxs with
  | nil => intro _; exact ⟨[], rfl⟩
  | cons i rest ih =>
      intro h
      obtain ⟨r, hr⟩ := h i (by simp)
      obtain ⟨rs, hrs⟩ := ih (fun i' hi' => h i' (by simp [hi']))
      exact ⟨r :: rs, by simp [assembleGo, hr, hrs]⟩

theorem cfFieldOf_error (cf : Option PyDict) (e : PyErr)
    (h : cfFieldOf cf = .error e) : e = .attributeError := by
  cases cf with
  | none => simp [cfFieldOf] at h
  | some m =>
      simp only [cfFieldOf] at h
      by_cases hm : m.isEmpty
      · rw [if_pos hm] at h; cases h
      · rw [if_neg hm] at h
        cases m with
        | nil => simp at hm
        | cons kv rest =>
            obtain ⟨k, v⟩ := kv
            cases v with
            | pdict inner => simp [format_counterfactual_metrics, Except.map] at h
            | pnone =>
                simp [format_counterfactual_metrics, Except.map] at h
                exact h.symm
            | pnum q =>
                simp [format_counterfactual_metrics, Except.map] at h
                exact h.symm
            | pstr s =>
                simp [format_counterfactual_metrics, Except.map] at h
                exact h.symm
            | plist xs =>
                simp [format_counterfactual_metrics, Except.map] at h
                exact h.symm

theorem assembleGo_error (v : List VItem) (toxs : List PyDict)
    (sts : List (ℕ × PyDict × String)) (cfs : List (Option PyDict)) :
    ∀ (idxs : List ℕ) (e : PyErr),
      assembleGo v toxs sts cfs idxs = .error e → e = .attributeError := by
  intro idxs
  induction idxs with
  | nil => intro e h; cases h
  | cons i rest ih =>
      intro e h
      simp only [assembleGo] at h
      cases hone : assembleOne v toxs sts cfs i with
      | error e' =>
          rw [hone] at h
          cases h
          unfold assembleOne at hone
          cases hcf : cfFieldOf (cfs.getD i none) with
          | error e'' =>
              rw [hcf] at hone
              cases hone
              exact cfFieldOf_error _ _ hcf
          | ok c => rw [hcf] at hone; cases hone
      | ok r =>
          rw [hone] at h
          cases hrest : assembleGo v toxs sts cfs rest with
          | error e' =>
              rw [hrest] at h
              cases h
              exact ih e hrest
          | ok rs => rw [hrest] at h; cases h

/-! ## Lemmas: the pipeline per item -/

theorem vitemsFrom_filter_map_response (k : ℕ) (items : List BatchItem) (c : String) :
    (((vitemsFrom k items).filter (fun it => resolvedOf it = c)).map
        (fun it => it.user_response)) =
      ((items.filter (fun it => resolveCategory it.category = c)).map
        (fun it => it.user_response)) := by
  induction items generalizing k with
  | nil => rfl
  | cons it rest ih =>
      simp only [vitemsFrom, List.filter_cons]
      by_cases hc : resolveCategory it.category = c
      · have hres : resolvedOf
            (⟨it.question_text, it.user_response, it.category,
              it.include_counterfactual, k⟩ : VItem) = c := hc
        simp [hres, hc, ih (k + 1)]
      · have hres : ¬ (resolvedOf
            (⟨it.question_text, it.user_response, it.category,
              it.include_counterfactual, k⟩ : VItem) = c) := hc
        simp [hres, hc, ih (k + 1)]

theorem range_getD (n i : ℕ) (hi : i < n) : (List.range n).getD i 0 = i := by
  rw [List.getD_eq_getElem _ _ (by simpa using hi)]
  simp

theorem vitemsOf_map_index (items : List BatchItem) :
    (vitemsOf items).map (fun it => it.index) = List.range (vitemsOf items).length := by
  unfold vitemsOf
  rw [vitemsFrom_map_index, vitemsFrom_length, List.range_eq_range']

theorem cfTaskOf_vitem (env : ScorerEnv) (items : List BatchItem) (i : ℕ)
    (hi : i < items.length) :
    (cfTaskOf env ((vitemsOf items).getD i dVItem)).map Prod.snd =
      cfDictForItem env items i := by
  unfold vitemsOf
  rw [vitemsFrom_getD 0 i items hi]
  unfold cfTaskOf cfTaskCond cfDictForItem
  simp only [Nat.zero_add]
  by_cases hcond : ((items.getD i dBatchItem).include_counterfactual
      && (pyLower (items.getD i dBatchItem).category = "gender"
          || pyLower (items.getD i dBatchItem).category = "race")
      && env.cfGen.isSome) = true
  · rw [if_pos hcond, if_pos hcond]
    rfl
  · rw [if_neg hcond, if_neg hcond]
    rfl

theorem toxicityStage_vitems (env : ScorerEnv) (items : List BatchItem) :
    toxicityStage env ((vitemsOf items).map (fun it => it.question_text))
      ((vitemsOf items).map (fun it => it.user_response)) (vitemsOf items).length =
      toxDictsFor env items := by
  unfold vitemsOf toxDictsFor
  rw [vitemsFrom_map_question, vitemsFrom_map_response, vitemsFrom_length]

theorem runPipeline_ok_of_nocf (env : ScorerEnv) (v : List VItem)
    (hmap : v.map (fun it => it.index) = List.range v.length)
    (hcf : ∀ i, i < v.length → cfTaskOf env (v.getD i dVItem) = none) :
    ∃ rs, runPipeline env v = .ok rs ∧ rs.length = v.length := by
  unfold runPipeline
  have hforall : ∀ i ∈ List.range v.length,
      ∃ r, assembleOne v
        (toxicityStage env (v.map (fun it => it.question_text))
          (v.map (fun it => it.user_response)) v.length)
        (sortByIdx (stereotypeStage env (category_groups v)))
        (cfStage env v) i = .ok r := by
    intro i hi
    rw [List.mem_range] at hi
    unfold assembleOne
    rw [cfStage_getD env v v.length i rfl hmap hi, hcf i hi]
    exact ⟨_, rfl⟩
  obtain ⟨rs, hrs⟩ := assembleGo_ok_of_forall _ _ _ _ _ hforall
  obtain ⟨hlen, _⟩ := assembleGo_ok_spec _ _ _ _ _ _ hrs
  exact ⟨rs, hrs, by simpa using hlen⟩

theorem evaluate_batch_ok_of_nocf (env : ScorerEnv) (items : List BatchItem)
    (h5 : items.length ≤ 5) (h0 : items.length ≠ 0)
    (hblank : ∀ it ∈ items, stripIsEmpty it.user_response = false)
    (hcf : ∀ i, i < items.length → cfDictForItem env items i = none) :
    ∃ results, evaluate_batch env items = .ok results ∧
      results.length = items.length := by
  have hv := validateLoop_ok_of_no_blank 0 items hblank
  have hlen : (vitemsOf items).length = items.length := vitemsFrom_length 0 items
  have hcf' : ∀ i, i < (vitemsOf items).length →
      cfTaskOf env ((vitemsOf items).getD i dVItem) = none := by
    intro i hi
    have hii : i < items.length := hlen ▸ hi
    have := cfTaskOf_vitem env items i hii
    rw [hcf i hii] at this
    cases htask : cfTaskOf env ((vitemsOf items).getD i dVItem) with
    | none => rfl
    | some r => rw [htask] at this; cases this
  obtain ⟨rs, hrs, hrslen⟩ := runPipeline_ok_of_nocf env (vitemsOf items)
    (vitemsOf_map_index items) hcf'
  refine ⟨rs, ?_, by rw [hrslen, hlen]⟩
  unfold evaluate_batch
  rw [if_neg (by omega), if_neg (by omega)]
  unfold vitemsOf at hv
  rw [hv]
  exact hrs

/-- Per-position description of every accepted batch: the sizes and blank
checks passed, the result list is index-aligned with the input, and position
`i` is assembled from item `i`'s own toxicity entry, its category group's
stereotype dictionary, and its own counterfactual slot, with `success=true`. -/
theorem evaluate_batch_ok_spec (env : ScorerEnv) (items : List BatchItem)
    (results : List EvalResult) (h : evaluate_batch env items = .ok results) :
    items.length ≤ 5 ∧ 1 ≤ items.length ∧
      (∀ it ∈ items, stripIsEmpty it.user_response = false) ∧
      results.length = items.length ∧
      ∀ i, i < items.length →
        (results.getD i dResult).success = true ∧
        (results.getD i dResult).metrics.toxicity =
          format_toxicity_metrics ((toxDictsFor env items).getD i []) ∧
        (results.getD i dResult).metrics.stereotype =
          format_stereotype_metrics (stereoRawFor env items i)
            ((items.getD i dBatchItem).category) ∧
        cfFieldOf (cfDictForItem env items i) =
          .ok ((results.getD i dResult).metrics.counterfactual) := by
  unfold evaluate_batch at h
  by_cases h5 : items.length > 5
  · rw [if_pos h5] at h; cases h
  rw [if_neg h5] at h
  by_cases h0 : items.length = 0
  · rw [if_pos h0] at h; cases h
  rw [if_neg h0] at h
  cases hval : validateLoop 0 items with
  | error e => rw [hval] at h; cases h
  | ok v =>
      rw [hval] at h
      obtain ⟨hblank, hveq⟩ := validateLoop_ok_inv 0 items v hval
      have hveq' : v = vitemsOf items := hveq
      subst hveq'
      have hlenv : (vitemsOf items).length = items.length := vitemsFrom_length 0 items
      have hmapidx : (vitemsOf items).map (fun it => it.index) =
          List.range (vitemsOf items).length := vitemsOf_map_index items
      simp only [runPipeline] at h
      obtain ⟨hrlen, hpt⟩ := assembleGo_ok_spec _ _ _ _ _ _ h
      refine ⟨by omega, by omega, hblank, by simpa [hlenv] using hrlen, ?_⟩
      intro i hi
      have hiv : i < (vitemsOf items).length := by omega
      have hone := hpt i (by simpa using hiv)
      rw [range_getD _ i hiv] at hone
      unfold assembleOne at hone
      have hcfslot : (cfStage env (vitemsOf items)).getD i none =
          cfDictForItem env items i := by
        rw [cfStage_getD env (vitemsOf items) (vitemsOf items).length i rfl hmapidx hiv]
        exact cfTaskOf_vitem env items i hi
      rw [hcfslot] at hone
      cases hcf : cfFieldOf (cfDictForItem env items i) with
      | error e => rw [hcf] at hone; cases hone
      | ok c =>
          rw [hcf] at hone
          simp only [Except.ok.injEq] at hone
          have hit_eq := vitemsFrom_getD 0 i items hi
          have hit_eq' : (vitemsOf items).getD i dVItem =
              ⟨(items.getD i dBatchItem).question_text,
               (items.getD i dBatchItem).user_response,
               (items.getD i dBatchItem).category,
               (items.getD i dBatchItem).include_counterfactual, i⟩ := by
            unfold vitemsOf
            simpa [Nat.zero_add] using hit_eq
          have hit_mem : (vitemsOf items).getD i dVItem ∈ vitemsOf items := by
            rw [List.getD_eq_getElem _ _ hiv]
            exact List.getElem_mem hiv
          have hkey : ((vitemsOf items).getD i dVItem).index = i := by
            rw [hit_eq']
          have hperm : ((stereotypeStage env (category_groups (vitemsOf items))).map
              Prod.fst).Perm (List.range (vitemsOf items).length) := by
            rw [stereotypeStage_map_fst]
            have hp := (category_groups_flatMap_perm (vitemsOf items)).map
              (fun it => it.index)
            rw [hmapidx] at hp
            exact hp
          have hxmem := stereoTriple_mem env (vitemsOf items)
            ((vitemsOf items).getD i dVItem) hit_mem
          have hsort := sortByIdx_getD (stereotypeStage env (category_groups (vitemsOf items)))
            (vitemsOf items).length i _ hperm hiv hxmem hkey
          rw [hsort] at hone
          have hcat : resolvedOf ((vitemsOf items).getD i dVItem) =
              resolveCategory ((items.getD i dBatchItem).category) := by
            rw [hit_eq']
            rfl
          have hgrp : (((vitemsOf items).filter
                (fun x => resolvedOf x = resolvedOf ((vitemsOf items).getD i dVItem))).map
              (fun x => x.user_response)) = groupResponsesFor items i := by
            rw [hcat]
            unfold vitemsOf groupResponsesFor
            exact vitemsFrom_filter_map_response 0 items _
          refine ⟨?_, ?_, ?_, ?_⟩
          · rw [← hone]
          · rw [← hone]
            simp only
            rw [toxicityStage_vitems]
          · rw [← hone]
            show format_stereotype_metrics
                (stereoMetricsOf env (resolvedOf ((vitemsOf items).getD i dVItem))
                  (((vitemsOf items).filter
                      (fun x => resolvedOf x = resolvedOf ((vitemsOf items).getD i dVItem))).map
                    (fun x => x.user_response)))
                (((vitemsOf items).getD i dVItem).category) =
              format_stereotype_metrics (stereoRawFor env items i)
                ((items.getD i dBatchItem).category)
            unfold stereoRawFor
            rw [hgrp, hcat, hit_eq']
          · rw [← hone]

/-! ## Lemmas: degraded defaults and error classification -/

theorem format_toxicity_default :
    format_toxicity_metrics defaultToxicityDict =
      { toxic_fraction := 0, expected_max_toxicity := 0, toxicity_probability := 0 } := rfl

theorem strContains_tagged (c : String) :
    strContains ("Stereotype Fraction - " ++ c) "Stereotype Fraction" = true := by
  simp only [strContains, decide_eq_true_eq]
  rw [String.data_append]
  exact (((by decide : "Stereotype Fraction".data <+: "Stereotype Fraction - ".data)).trans
    (List.prefix_append _ _)).isInfix

theorem assoc_ne_tagged (c : String) :
    ¬ ("Stereotype Association" = "Stereotype Fraction - " ++ c) := by
  intro h
  have hd := congrArg String.data h
  rw [String.data_append] at hd
  have hlen := congrArg List.length hd
  rw [List.length_append] at hlen
  have h1 : ("Stereotype Association".data).length = 22 := by decide
  have h2 : ("Stereotype Fraction - ".data).length = 22 := by decide
  rw [h1, h2] at hlen
  have hcnil : c.data = [] := List.eq_nil_of_length_eq_zero (by omega)
  rw [hcnil, List.append_nil] at hd
  exact absurd hd (by decide)

theorem bias_ne_tagged (c : String) :
    ¬ ("Cooccurrence Bias" = "Stereotype Fraction - " ++ c) := by
  intro h
  have hd := congrArg String.data h
  rw [String.data_append] at hd
  have hlen := congrArg List.length hd
  rw [List.length_append] at hlen
  have h1 : ("Cooccurrence Bias".data).length = 17 := by decide
  have h2 : ("Stereotype Fraction - ".data).length = 22 := by decide
  rw [h1, h2] at hlen
  omega

/-- Formatting the category-tagged zero dictionary yields the all-zero score,
whatever the category. -/
theorem format_stereotype_default (c category : String) :
    format_stereotype_metrics (defaultStereotypeDict c) category =
      { stereotype_association := 0, cooccurrence_bias := 0, stereotype_fraction := 0 } := by
  have hA : strContains "Stereotype Association" "Stereotype Fraction" = false := by decide
  have hB : strContains "Cooccurrence Bias" "Stereotype Fraction" = false := by decide
  have hC := strContains_tagged c
  have hA' := assoc_ne_tagged c
  have hB' := bias_ne_tagged c
  simp [format_stereotype_metrics, defaultStereotypeDict, List.find?, hA, hB, hC,
    dictGet, dictGet?, hA', hB', safe_float, PyObj.toFloat?]

theorem getD_replicate_lt {α : Type} (a d : α) (n i : ℕ) (hi : i < n) :
    (List.replicate n a).getD i d = a := by
  rw [List.getD_eq_getElem _ _ (by simpa using hi)]
  simp

theorem toxDictsFor_of_raises (env : ScorerEnv) (items : List BatchItem)
    (h : ∀ ps rs, ∃ msg, env.toxicity ps rs = .error msg) :
    toxDictsFor env items = List.replicate items.length defaultToxicityDict := by
  unfold toxDictsFor toxicityStage
  obtain ⟨msg, hmsg⟩ := h (items.map fun it => it.question_text)
    (items.map fun it => it.user_response)
  rw [hmsg]

theorem stereoRawFor_of_error (env : ScorerEnv) (items : List BatchItem) (i : ℕ)
    (msg : String)
    (h : env.stereotype (groupResponsesFor items i)
        (resolveCategory ((items.getD i dBatchItem).category)) = .error msg) :
    stereoRawFor env items i =
      defaultStereotypeDict (resolveCategory ((items.getD i dBatchItem).category)) := by
  unfold stereoRawFor stereoMetricsOf
  rw [h]

theorem stereoRawFor_of_ok (env : ScorerEnv) (items : List BatchItem) (i : ℕ)
    (m : PyDict)
    (h : env.stereotype (groupResponsesFor items i)
        (resolveCategory ((items.getD i dBatchItem).category)) = .ok m) :
    stereoRawFor env items i = m := by
  unfold stereoRawFor stereoMetricsOf
  rw [h]

theorem validateLoop_error_msg (k : ℕ) (items : List BatchItem) (e : PyErr)
    (h : validateLoop k items = .error e) :
    ∃ j : ℕ, e = .valueError ("Item " ++ toString j ++ ": user_response cannot be empty") := by
  induction items generalizing k with
  | nil => cases h
  | cons it rest ih =>
      cases hb : stripIsEmpty it.user_response with
      | true =>
          simp only [validateLoop, hb, if_true] at h
          cases h
          exact ⟨k, rfl⟩
      | false =>
          simp only [validateLoop, hb, Bool.false_eq_true, if_false] at h
          cases htail : validateLoop (k + 1) rest with
          | error e' =>
              rw [htail] at h
              cases h
              exact ih (k + 1) htail
          | ok tail => rw [htail] at h; cases h

theorem runPipeline_error (env : ScorerEnv) (v : List VItem) (e : PyErr)
    (h : runPipeline env v = .error e) : e = .attributeError := by
  simp only [runPipeline] at h
  exact assembleGo_error _ _ _ _ _ e h

theorem evaluate_batch_error_cases (env : ScorerEnv) (items : List BatchItem) (e : PyErr)
    (h1 : 1 ≤ items.length) (h5 : items.length ≤ 5)
    (h : evaluate_batch env items = .error e) :
    (∃ j : ℕ, e = .valueError ("Item " ++ toString j ++ ": user_response cannot be empty")) ∨
      e = .attributeError := by
  unfold evaluate_batch at h
  rw [if_neg (by omega), if_neg (by omega)] at h
  cases hval : validateLoop 0 items with
  | error e' =>
      rw [hval] at h
      cases h
      exact Or.inl (validateLoop_error_msg 0 items _ hval)
  | ok v =>
      rw [hval] at h
      exact Or.inr (runPipeline_error env v e h)

/-- The first character of a blank-item validation message is `I`, so it can
never coincide with either batch-size message. -/
theorem item_msg_ne_size_msgs (j : ℕ) :
    ("Item " ++ toString j ++ ": user_response cannot be empty") ≠
        "Batch evaluation supports maximum 5 items" ∧
      ("Item " ++ toString j ++ ": user_response cannot be empty") ≠
        "At least one item is required for batch evaluation" := by
  constructor <;>
  · intro h
    have hd := congrArg (fun s => s.data.head?) h
    simp only [String.data_append] at hd
    simp only [List.cons_append, List.head?_cons, Option.some.injEq] at hd
    exact absurd hd (by decide)

/-- `worker.main`: parse failure prints an `Invalid JSON input` error document
and exits 1; an exception out of `run_evaluation` prints
`{"success": false, "error": str(e)[:500]}` and exits 1; success prints the
result document and exits 0. -/
def worker_main (env : ScorerEnv) (parsed : Except String Json) : WorkerOutput :=
  match parsed with
  | .error e =>
      ⟨.jobj [("success", .jbool false), ("error", .jstr ("Invalid JSON input: " ++ e))], 1⟩
  | .ok payload =>
      match run_evaluation env payload with
      | .ok result => ⟨result, 0⟩
      | .error err =>
          ⟨.jobj [("success", .jbool false), ("error", .jstr (err.message.take 500))], 1⟩

/-! ## Concrete scorer environments and inputs used in witnesses and
counterexamples -/

/-- A plain environment: toxicity returns an empty metrics dictionary, the
stereotype scorer raises, no counterfactual generator (as shipped). -/
def envBase : ScorerEnv :=
  { toxicity := fun _ _ => .ok ⟨[], .pdict []⟩
    stereotype := fun _ _ => .error "stereotype failed"
    cfGen := none }

/-- An environment whose counterfactual generator exists but always raises. -/
def envCfFail : ScorerEnv :=
  { toxicity := fun _ _ => .ok ⟨[], .pdict []⟩
    stereotype := fun _ _ => .ok []
    cfGen := some (fun _ _ => .error "cf boom") }

/-- An environment whose stereotype scorer raises for `religion` and succeeds
for every other category. -/
def envSplit : ScorerEnv :=
  { toxicity := fun _ _ => .ok ⟨[], .pdict []⟩
    stereotype := fun _ c =>
      if c = "religion" then .error "religion scorer down"
      else .ok [("Stereotype Association", .pnum 1)]
    cfGen := none }

/-- An environment whose toxicity scorer always raises. -/
def envToxFail : ScorerEnv :=
  { toxicity := fun _ _ => .error "tox boom"
    stereotype := fun _ _ => .ok []
    cfGen := none }

/-- A well-formed batch item. -/
def goodItem : BatchItem := ⟨"Q", "R", "gender", false⟩

/-- The all-default result `envBase` produces for `goodItem`. -/
def r1Base : EvalResult :=
  ⟨true, ⟨⟨0, 0, 0⟩, ⟨0, 0, 0⟩, none⟩⟩

/-- The item of the worker round-trip document of the specification. -/
def c10item : Json :=
  .jobj [("question_text", .jstr "Q"), ("user_response", .jstr "R"),
         ("category", .jstr "gender")]

/-- The worker round-trip document
`{"type": "batch", "items": [{...}]}` of the specification. -/
def c10payload : Json :=
  .jobj [("type", .jstr "batch"), ("items", .jarr [c10item])]

/-! ## Claims -/

/-- C1: for every batch `evaluate_batch` accepts, the returned list has the
input's length, position `i` is the `EvaluationResult` for input item `i`
(its toxicity comes from the `i`-th per-batch toxicity entry, its stereotype
from item `i`'s category group, its counterfactual from item `i`'s own slot),
every position is a filled result record, and every result has
`success = true` even when sub-metrics degraded to defaults. -/
theorem c1_batch_index_preservation (env : ScorerEnv) (items : List BatchItem)
    (results : List EvalResult) (h : evaluate_batch env items = .ok results) :
    results.length = items.length ∧
      ∀ i, i < items.length →
        (results.getD i dResult).success = true ∧
        (results.getD i dResult).metrics.toxicity =
          format_toxicity_metrics ((toxDictsFor env items).getD i []) ∧
        (results.getD i dResult).metrics.stereotype =
          format_stereotype_metrics (stereoRawFor env items i)
            ((items.getD i dBatchItem).category) ∧
        cfFieldOf (cfDictForItem env items i) =
          .ok ((results.getD i dResult).metrics.counterfactual) := by
  obtain ⟨_, _, _, hlen, hpt⟩ := evaluate_batch_ok_spec env items results h
  exact ⟨hlen, hpt⟩

theorem c1_batch_index_preservation_witness :
    [r1Base].length = [goodItem].length ∧
      ∀ i, i < [goodItem].length →
        ([r1Base].getD i dResult).success = true ∧
        ([r1Base].getD i dResult).metrics.toxicity =
          format_toxicity_metrics ((toxDictsFor envBase [goodItem]).getD i []) ∧
        ([r1Base].getD i dResult).metrics.stereotype =
          format_stereotype_metrics (stereoRawFor envBase [goodItem] i)
            (([goodItem].getD i dBatchItem).category) ∧
        cfFieldOf (cfDictForItem envBase [goodItem] i) =
          .ok (([r1Base].getD i dResult).metrics.counterfactual) :=
  c1_batch_index_preservation envBase [goodItem] [r1Base] (by decide)

/-- C2 as stated is false: a 6-item batch lies inside the claimed 1–20 window
and every item is valid, yet `evaluate_batch` rejects it. -/
theorem c2_counterexample :
    6 ≤ 20 ∧
      evaluate_batch envBase (List.replicate 6 goodItem) =
        .error (.valueError "Batch evaluation supports maximum 5 items") :=
  ⟨by omega, by decide⟩

/-- C2 (amended): batch evaluation accepts item lists of size 1 through 5; a
batch of size 0 or greater than 5 is rejected with a validation error before
any scoring (the result does not depend on the scorers); within 1–5 no batch
is rejected for its size — any rejection is a blank-response validation error
or the counterfactual `AttributeError`. -/
theorem c2_batch_size_bounds (env : ScorerEnv) (items : List BatchItem) :
    (items.length > 5 →
      evaluate_batch env items =
        .error (.valueError "Batch evaluation supports maximum 5 items")) ∧
    (items.length = 0 →
      evaluate_batch env items =
        .error (.valueError "At least one item is required for batch evaluation")) ∧
    (1 ≤ items.length → items.length ≤ 5 →
      ∀ e, evaluate_batch env items = .error e →
        e ≠ .valueError "Batch evaluation supports maximum 5 items" ∧
        e ≠ .valueError "At least one item is required for batch evaluation") := by
  refine ⟨?_, ?_, ?_⟩
  · intro h5
    unfold evaluate_batch
    rw [if_pos h5]
  · intro h0
    unfold evaluate_batch
    rw [if_neg (by omega), if_pos h0]
  · intro h1 h5 e he
    rcases evaluate_batch_error_cases env items e h1 h5 he with ⟨j, rfl⟩ | rfl
    · obtain ⟨hne1, hne2⟩ := item_msg_ne_size_msgs j
      constructor
      · intro hc
        injection hc with hmsg
        exact hne1 hmsg
      · intro hc
        injection hc with hmsg
        exact hne2 hmsg
    · exact ⟨fun hc => PyErr.noConfusion hc, fun hc => PyErr.noConfusion hc⟩

theorem c2_batch_size_bounds_witness :
    evaluate_batch envBase ([] : List BatchItem) =
      .error (.valueError "At least one item is required for batch evaluation") :=
  (c2_batch_size_bounds envBase []).2.1 rfl

/-- C3 as stated is false: the label `nationality` resolves to none of
{gender, race, religion, age}, yet `evaluate_response` succeeds (scored under
the default category) instead of failing with a validation error. -/
theorem c3_counterexample :
    category_mapping.find? (fun kv => kv.fst = pyLower "nationality") = none ∧
      resolveCategory "nationality" = "gender" ∧
      evaluate_response envBase "Q" "R" "nationality" false =
        .ok ⟨true, ⟨⟨0, 0, 0⟩, ⟨0, 0, 0⟩, none⟩⟩ := by
  decide

/-- C3 (amended): single-item evaluation performs no strict category
validation: any label that does not resolve (after lower-casing only — no
trimming) defaults to `gender`, and the request is scored rather than
rejected; the stereotype stage is run on the resolved category. -/
theorem c3_lenient_single_item (env : ScorerEnv) (q resp cat : String) (icf : Bool)
    (hresp : stripIsEmpty resp = false) (hgen : env.cfGen = none) :
    (category_mapping.find? (fun kv => kv.fst = pyLower cat) = none →
      resolveCategory cat = "gender") ∧
    ∃ r, evaluate_response env q resp cat icf = .ok r ∧ r.success = true ∧
      r.metrics.stereotype =
        format_stereotype_metrics (stereoMetricsOf env (resolveCategory cat) [resp]) cat := by
  constructor
  · intro h
    unfold resolveCategory
    rw [h]
    rfl
  · unfold evaluate_response
    simp only [hresp, Bool.false_eq_true, if_false]
    rw [hgen]
    by_cases hic : (icf && (pyLower cat = "gender" || pyLower cat = "race")) = true
    · rw [if_pos hic]
      exact ⟨_, rfl, rfl, rfl⟩
    · rw [if_neg hic]
      exact ⟨_, rfl, rfl, rfl⟩

theorem c3_lenient_single_item_witness :
    (category_mapping.find? (fun kv => kv.fst = pyLower "nationality") = none →
      resolveCategory "nationality" = "gender") ∧
    ∃ r, evaluate_response envBase "Q" "R" "nationality" false = .ok r ∧
      r.success = true ∧
      r.metrics.stereotype =
        format_stereotype_metrics
          (stereoMetricsOf envBase (resolveCategory "nationality") ["R"]) "nationality" :=
  c3_lenient_single_item envBase "Q" "R" "nationality" false (by decide) rfl

theorem cfDictForItem_none_of_gen_none (env : ScorerEnv) (items : List BatchItem)
    (i : ℕ) (hgen : env.cfGen = none) : cfDictForItem env items i = none := by
  simp only [cfDictForItem]
  rw [hgen]
  simp

theorem cfDictForItem_none_of_not_optin (env : ScorerEnv) (items : List BatchItem)
    (i : ℕ) (hicf : (items.getD i dBatchItem).include_counterfactual = false) :
    cfDictForItem env items i = none := by
  simp only [cfDictForItem]
  rw [hicf]
  simp

/-- C4 as stated is false: with a generator present whose generation task
fails, the whole two-item batch aborts with `AttributeError` — the item-scoped
`{"error": ...}` marker reaches `_format_counterfactual_metrics`, which calls
`.get` on the marker's string value — so the sibling item's result is lost and
nothing is confined to the counterfactual field. -/
theorem c4_counterexample :
    evaluate_batch envCfFail
        [⟨"Q", "R1", "gender", true⟩, ⟨"Q2", "R2", "age", false⟩] =
      .error .attributeError := by
  decide

/-- C4 (amended): with the generator capability missing — always the case as
shipped, `HAS_LLM_SUPPORT` being `False` — every item of an accepted batch,
opting in or not, receives an empty counterfactual result (absence, not an
error marker); items not opting in receive the empty result in any
environment; `_evaluate_counterfactual_single` itself never raises and
returns the item-scoped `(index, {"error": message})` pair on task failure;
but `_format_counterfactual_metrics` raises `AttributeError` on any non-empty
error marker, so a marker reaching assembly aborts the whole batch. -/
theorem c4_counterfactual_isolation (env : ScorerEnv) :
    (∀ (items : List BatchItem) (results : List EvalResult), env.cfGen = none →
      evaluate_batch env items = .ok results →
      ∀ r ∈ results, r.metrics.counterfactual = none) ∧
    (∀ (items : List BatchItem) (results : List EvalResult) (i : ℕ),
      evaluate_batch env items = .ok results → i < items.length →
      (items.getD i dBatchItem).include_counterfactual = false →
      (results.getD i dResult).metrics.counterfactual = none) ∧
    (∀ (g : String → String → Except String PyDict) (q c : String) (i : ℕ) (msg : String),
      env.cfGen = some g → g q c = .error msg →
      evaluate_counterfactual_single env q c i =
        (i, [("error", .pstr (msg.take 200))])) ∧
    (∀ (s : String) (rest : PyDict),
      format_counterfactual_metrics (("error", .pstr s) :: rest) =
        .error .attributeError) := by
  refine ⟨?_, ?_, ?_, ?_⟩
  · intro items results hgen h r hr
    obtain ⟨_, _, _, hlen, hpt⟩ := evaluate_batch_ok_spec env items results h
    obtain ⟨i, hi, rfl⟩ := List.mem_iff_getElem.mp hr
    have hii : i < items.length := by omega
    obtain ⟨_, _, _, hcf⟩ := hpt i hii
    rw [cfDictForItem_none_of_gen_none env items i hgen] at hcf
    have h0 : (Except.ok (none : Option CounterfactualScore) : Except PyErr _) =
        .ok ((results.getD i dResult).metrics.counterfactual) := hcf
    injection h0 with h0'
    rw [List.getD_eq_getElem _ _ hi] at h0'
    exact h0'.symm
  · intro items results i h hi hicf
    obtain ⟨_, _, _, hlen, hpt⟩ := evaluate_batch_ok_spec env items results h
    obtain ⟨_, _, _, hcf⟩ := hpt i hi
    rw [cfDictForItem_none_of_not_optin env items i hicf] at hcf
    have h0 : (Except.ok (none : Option CounterfactualScore) : Except PyErr _) =
        .ok ((results.getD i dResult).metrics.counterfactual) := hcf
    injection h0 with h0'
    exact h0'.symm
  · intro g q c i msg hg herr
    simp [evaluate_counterfactual_single, hg, herr]
  · intro s rest
    rfl

theorem c4_counterfactual_isolation_witness :
    ((r1Base : EvalResult).metrics.counterfactual = none) ∧
    evaluate_counterfactual_single envCfFail "Q" "gender" 0 =
      (0, [("error", .pstr ("cf boom".take 200))]) :=
  ⟨(c4_counterfactual_isolation envBase).1 [⟨"Q", "R", "gender", true⟩] [r1Base]
      rfl (by decide) r1Base (by decide),
   (c4_counterfactual_isolation envCfFail).2.2.1 _ "Q" "gender" 0 "cf boom" rfl rfl⟩

/-- C5 as stated is false: a raw value of `2.0` under `Toxic Fraction` is
passed through unclamped, so the returned `toxic_fraction` lies outside
`[0,1]`. -/
theorem c5_counterexample :
    (format_toxicity_metrics [("Toxic Fraction", .pnum 2)]).toxic_fraction = 2 ∧
      ¬ ((format_toxicity_metrics [("Toxic Fraction", .pnum 2)]).toxic_fraction ≤ 1) := by
  decide

theorem safe_float_eq_toFloat (v : PyObj) (d : ℚ) :
    safe_float v d = (v.toFloat?).getD d := by
  cases v <;> rfl

theorem format_toxicity_toxic_fraction (m : PyDict) :
    (format_toxicity_metrics m).toxic_fraction =
      if m.isEmpty then 0 else safe_float (dictGet m "Toxic Fraction" .pnone) 0 := by
  unfold format_toxicity_metrics
  by_cases hm : m.isEmpty <;> simp [hm]

theorem format_toxicity_expected_max (m : PyDict) :
    (format_toxicity_metrics m).expected_max_toxicity =
      if m.isEmpty then 0
      else safe_float (dictGet m "Expected Maximum Toxicity" .pnone) 0 := by
  unfold format_toxicity_metrics
  by_cases hm : m.isEmpty <;> simp [hm]

theorem format_toxicity_probability (m : PyDict) :
    (format_toxicity_metrics m).toxicity_probability =
      if m.isEmpty then 0 else safe_float (dictGet m "Toxicity Probability" .pnone) 0 := by
  unfold format_toxicity_metrics
  by_cases hm : m.isEmpty <;> simp [hm]

theorem tox_lookup_default (m : PyDict) (k : String)
    (h : dictGet? m k = none ∨ ∃ v, dictGet? m k = some v ∧ v.toFloat? = none) :
    (if m.isEmpty then (0 : ℚ) else safe_float (dictGet m k .pnone) 0) = 0 := by
  by_cases hm : m.isEmpty
  · rw [if_pos hm]
  · rw [if_neg hm, safe_float_eq_toFloat]
    unfold dictGet
    rcases h with h | ⟨v, hv, hvf⟩
    · rw [h]; rfl
    · rw [hv, Option.getD_some, hvf]; rfl

theorem tox_lookup_num (m : PyDict) (k : String) (q : ℚ)
    (h : dictGet? m k = some (.pnum q)) :
    (if m.isEmpty then (0 : ℚ) else safe_float (dictGet m k .pnone) 0) = q := by
  have hm : m.isEmpty = false := by
    cases m with
    | nil => simp [dictGet?] at h
    | cons kv rest => simp
  rw [if_neg (by simp [hm]), safe_float_eq_toFloat]
  unfold dictGet
  rw [h, Option.getD_some]
  rfl

/-- C5 (amended): the orchestrator defaults but does not clamp: each of the
three toxicity fields is `0.0` whenever the raw entry is missing, `None`, or
fails `float()` conversion — so `None` and non-numeric values never
propagate — and equals the raw number otherwise, without being clamped to
`[0,1]`. -/
theorem c5_toxicity_score_formatting (m : PyDict) :
    ((dictGet? m "Toxic Fraction" = none ∨
        ∃ v, dictGet? m "Toxic Fraction" = some v ∧ v.toFloat? = none) →
      (format_toxicity_metrics m).toxic_fraction = 0) ∧
    (∀ q : ℚ, dictGet? m "Toxic Fraction" = some (.pnum q) →
      (format_toxicity_metrics m).toxic_fraction = q) ∧
    ((dictGet? m "Expected Maximum Toxicity" = none ∨
        ∃ v, dictGet? m "Expected Maximum Toxicity" = some v ∧ v.toFloat? = none) →
      (format_toxicity_metrics m).expected_max_toxicity = 0) ∧
    (∀ q : ℚ, dictGet? m "Expected Maximum Toxicity" = some (.pnum q) →
      (format_toxicity_metrics m).expected_max_toxicity = q) ∧
    ((dictGet? m "Toxicity Probability" = none ∨
        ∃ v, dictGet? m "Toxicity Probability" = some v ∧ v.toFloat? = none) →
      (format_toxicity_metrics m).toxicity_probability = 0) ∧
    (∀ q : ℚ, dictGet? m "Toxicity Probability" = some (.pnum q) →
      (format_toxicity_metrics m).toxicity_probability = q) := by
  refine ⟨?_, ?_, ?_, ?_, ?_, ?_⟩
  · intro h
    rw [format_toxicity_toxic_fraction]
    exact tox_lookup_default m _ h
  · intro q h
    rw [format_toxicity_toxic_fraction]
    exact tox_lookup_num m _ q h
  · intro h
    rw [format_toxicity_expected_max]
    exact tox_lookup_default m _ h
  · intro q h
    rw [format_toxicity_expected_max]
    exact tox_lookup_num m _ q h
  · intro h
    rw [format_toxicity_probability]
    exact tox_lookup_default m _ h
  · intro q h
    rw [format_toxicity_probability]
    exact tox_lookup_num m _ q h

theorem c5_toxicity_score_formatting_witness :
    (format_toxicity_metrics [("Toxic Fraction", .pnum 2)]).toxic_fraction = 2 ∧
      (format_toxicity_metrics [("Toxic Fraction", .pstr "oops")]).toxic_fraction = 0 :=
  ⟨(c5_toxicity_score_formatting [("Toxic Fraction", .pnum 2)]).2.1 2 rfl,
   (c5_toxicity_score_formatting [("Toxic Fraction", .pstr "oops")]).1
     (Or.inr ⟨.pstr "oops", rfl, rfl⟩)⟩

/-- C6: when the toxicity scorer raises, every item of a valid batch (with the
counterfactual generator absent, as shipped) still gets a result, the batch
proceeds rather than failing, every result reports `success = true`, and every
toxicity score is the canonical zero-valued one. -/
theorem c6_toxicity_batch_degradation (env : ScorerEnv) (items : List BatchItem)
    (htox : ∀ ps rs, ∃ msg, env.toxicity ps rs = .error msg)
    (hgen : env.cfGen = none)
    (h1 : 1 ≤ items.length) (h5 : items.length ≤ 5)
    (hblank : ∀ it ∈ items, stripIsEmpty it.user_response = false) :
    ∃ results, evaluate_batch env items = .ok results ∧
      results.length = items.length ∧
      ∀ r ∈ results, r.success = true ∧
        r.metrics.toxicity =
          { toxic_fraction := 0, expected_max_toxicity := 0,
            toxicity_probability := 0 } := by
  obtain ⟨results, hok, hlen⟩ := evaluate_batch_ok_of_nocf env items h5 (by omega) hblank
    (fun i _ => cfDictForItem_none_of_gen_none env items i hgen)
  refine ⟨results, hok, hlen, ?_⟩
  intro r hr
  obtain ⟨_, _, _, _, hpt⟩ := evaluate_batch_ok_spec env items results hok
  obtain ⟨i, hi, rfl⟩ := List.mem_iff_getElem.mp hr
  have hii : i < items.length := by omega
  obtain ⟨hsucc, htoxi, _, _⟩ := hpt i hii
  rw [List.getD_eq_getElem _ _ hi] at hsucc htoxi
  refine ⟨hsucc, ?_⟩
  rw [htoxi, toxDictsFor_of_raises env items htox,
    getD_replicate_lt defaultToxicityDict [] items.length i hii]
  exact format_toxicity_default

theorem c6_toxicity_batch_degradation_witness :
    ∃ results, evaluate_batch envToxFail [goodItem] = .ok results ∧
      results.length = [goodItem].length ∧
      ∀ r ∈ results, r.success = true ∧
        r.metrics.toxicity =
          { toxic_fraction := 0, expected_max_toxicity := 0,
            toxicity_probability := 0 } :=
  c6_toxicity_batch_degradation envToxFail [goodItem]
    (fun _ _ => ⟨"tox boom", rfl⟩) rfl (by decide) (by decide) (by decide)

/-- C7: stereotype failure isolation is at category-group granularity: inside
one accepted batch, an item whose group's scorer call raised gets the
category-tagged zero dictionary, formatted as the all-zero score, while an
item whose group's call succeeded gets the real computed score. -/
theorem c7_stereotype_group_isolation (env : ScorerEnv) (items : List BatchItem)
    (results : List EvalResult) (i : ℕ)
    (h : evaluate_batch env items = .ok results) (hi : i < items.length) :
    (∀ msg, env.stereotype (groupResponsesFor items i)
          (resolveCategory ((items.getD i dBatchItem).category)) = .error msg →
      stereoRawFor env items i =
          defaultStereotypeDict
            (resolveCategory ((items.getD i dBatchItem).category)) ∧
        (results.getD i dResult).metrics.stereotype =
          { stereotype_association := 0, cooccurrence_bias := 0,
            stereotype_fraction := 0 }) ∧
    (∀ m, env.stereotype (groupResponsesFor items i)
          (resolveCategory ((items.getD i dBatchItem).category)) = .ok m →
      (results.getD i dResult).metrics.stereotype =
        format_stereotype_metrics m ((items.getD i dBatchItem).category)) := by
  obtain ⟨_, _, _, _, hpt⟩ := evaluate_batch_ok_spec env items results h
  obtain ⟨_, _, hst, _⟩ := hpt i hi
  constructor
  · intro msg hmsg
    have hraw := stereoRawFor_of_error env items i msg hmsg
    refine ⟨hraw, ?_⟩
    rw [hst, hraw]
    exact format_stereotype_default _ _
  · intro m hm
    rw [hst, stereoRawFor_of_ok env items i m hm]

theorem c7_stereotype_group_isolation_witness :
    (stereoRawFor envSplit
        [⟨"Q1", "R1", "religion", false⟩, ⟨"Q2", "R2", "gender", false⟩] 0 =
        defaultStereotypeDict "religion" ∧
      ((([⟨true, ⟨⟨0, 0, 0⟩, ⟨0, 0, 0⟩, none⟩⟩,
          ⟨true, ⟨⟨0, 0, 0⟩, ⟨1, 0, 0⟩, none⟩⟩] : List EvalResult).getD 0
            dResult).metrics.stereotype =
        { stereotype_association := 0, cooccurrence_bias := 0,
          stereotype_fraction := 0 })) ∧
    ((([⟨true, ⟨⟨0, 0, 0⟩, ⟨0, 0, 0⟩, none⟩⟩,
        ⟨true, ⟨⟨0, 0, 0⟩, ⟨1, 0, 0⟩, none⟩⟩] : List EvalResult).getD 1
          dResult).metrics.stereotype =
      format_stereotype_metrics [("Stereotype Association", .pnum 1)] "gender") :=
  ⟨(c7_stereotype_group_isolation envSplit
      [⟨"Q1", "R1", "religion", false⟩, ⟨"Q2", "R2", "gender", false⟩]
      [⟨true, ⟨⟨0, 0, 0⟩, ⟨0, 0, 0⟩, none⟩⟩, ⟨true, ⟨⟨0, 0, 0⟩, ⟨1, 0, 0⟩, none⟩⟩]
      0 (by decide) (by decide)).1 "religion scorer down" rfl,
   (c7_stereotype_group_isolation envSplit
      [⟨"Q1", "R1", "religion", false⟩, ⟨"Q2", "R2", "gender", false⟩]
      [⟨true, ⟨⟨0, 0, 0⟩, ⟨0, 0, 0⟩, none⟩⟩, ⟨true, ⟨⟨0, 0, 0⟩, ⟨1, 0, 0⟩, none⟩⟩]
      1 (by decide) (by decide)).2 [("Stereotype Association", .pnum 1)] rfl⟩

theorem resolveCategory_mem (c : String) :
    resolveCategory c ∈ ["gender", "race", "religion", "age"] := by
  unfold resolveCategory
  cases hf : category_mapping.find? (fun kv => kv.fst = pyLower c) with
  | none => simp
  | some kv =>
      have hmem := List.mem_of_find?_eq_some hf
      fin_cases hmem <;> simp

/-- C8: grouping partitions the validated items by resolved category — keys
are pairwise distinct, are exactly the resolved categories present, each
group holds precisely its category's items in input order, keys appear in
first-seen order — and the number of groups (one stereotype scorer call is
made per group) equals the number of distinct resolved categories and never
exceeds 4. -/
theorem c8_grouping_partition (validated_items : List VItem) :
    ((category_groups validated_items).map Prod.fst).Nodup ∧
    (∀ c, c ∈ (category_groups validated_items).map Prod.fst ↔
        c ∈ validated_items.map resolvedOf) ∧
    (∀ c ms, (c, ms) ∈ category_groups validated_items →
        ms = validated_items.filter (fun it => resolvedOf it = c)) ∧
    ((category_groups validated_items).map Prod.fst).Pairwise
      (fun a b => firstPos a (validated_items.map resolvedOf) <
        firstPos b (validated_items.map resolvedOf)) ∧
    (category_groups validated_items).length =
      (validated_items.map resolvedOf).dedup.length ∧
    (category_groups validated_items).length ≤ 4 := by
  have hfst := category_groups_map_fst validated_items
  have hlen_keys : (category_groups validated_items).length =
      (firstSeen (validated_items.map resolvedOf)).length := by
    have := congrArg List.length hfst
    simpa using this
  refine ⟨?_, ?_, ?_, ?_, ?_, ?_⟩
  · rw [hfst]; exact firstSeen_nodup _
  · intro c
    rw [hfst]
    exact mem_firstSeen _ c
  · exact fun c ms h => mem_category_groups validated_items c ms h
  · rw [hfst]
    exact firstSeen_pairwise_firstPos _
  · rw [hlen_keys]
    have h1 : (firstSeen (validated_items.map resolvedOf)).toFinset =
        ((validated_items.map resolvedOf).dedup).toFinset := by
      ext a
      simp [List.mem_toFinset, mem_firstSeen, List.mem_dedup]
    have h2 := List.toFinset_card_of_nodup (firstSeen_nodup (validated_items.map resolvedOf))
    have h3 := List.toFinset_card_of_nodup
      (List.nodup_dedup (validated_items.map resolvedOf))
    rw [← h2, ← h3, h1]
  · rw [hlen_keys]
    have hsub : (firstSeen (validated_items.map resolvedOf)).toFinset ⊆
        (["gender", "race", "religion", "age"] : List String).toFinset := by
      intro a ha
      rw [List.mem_toFinset, mem_firstSeen] at ha
      rw [List.mem_toFinset]
      obtain ⟨it, _, rfl⟩ := List.mem_map.mp ha
      exact resolveCategory_mem it.category
    have h2 := List.toFinset_card_of_nodup (firstSeen_nodup (validated_items.map resolvedOf))
    have h4 : (["gender", "race", "religion", "age"] : List String).toFinset.card = 4 := by
      decide
    calc (firstSeen (validated_items.map resolvedOf)).length
        = (firstSeen (validated_items.map resolvedOf)).toFinset.card := h2.symm
      _ ≤ (["gender", "race", "religion", "age"] : List String).toFinset.card :=
          Finset.card_le_card hsub
      _ = 4 := h4

theorem c8_grouping_partition_witness :
    ((category_groups [⟨"", "r1", "religion", false, 0⟩, ⟨"", "r2", "gender", false, 1⟩,
        ⟨"", "r3", "ethnicity", false, 2⟩, ⟨"", "r4", "race", false, 3⟩]).length ≤ 4) ∧
    ([⟨"", "r3", "ethnicity", false, 2⟩, ⟨"", "r4", "race", false, 3⟩] : List VItem) =
      ([⟨"", "r1", "religion", false, 0⟩, ⟨"", "r2", "gender", false, 1⟩,
        ⟨"", "r3", "ethnicity", false, 2⟩,
        ⟨"", "r4", "race", false, 3⟩] : List VItem).filter
        (fun it => resolvedOf it = "race") :=
  ⟨(c8_grouping_partition _).2.2.2.2.2,
   (c8_grouping_partition _).2.2.1 "race" _ (by decide)⟩

/-- C9: a batch containing an empty or whitespace-only response fails
validation with an error naming the first such item, with a result
independent of the scorer environment (so no scorer can have been consulted);
single-item evaluation rejects a blank response the same way. -/
theorem c9_blank_response_validation (items : List BatchItem)
    (h5 : items.length ≤ 5)
    (hex : ∃ it ∈ items, stripIsEmpty it.user_response = true) :
    (∀ env : ScorerEnv, evaluate_batch env items =
        .error (.valueError ("Item " ++
          toString (items.findIdx (fun it => stripIsEmpty it.user_response)) ++
          ": user_response cannot be empty"))) ∧
    (∀ (env : ScorerEnv) (q cat : String) (icf : Bool) (resp : String),
      stripIsEmpty resp = true →
      evaluate_response env q resp cat icf =
        .error (.valueError "user_response cannot be empty")) := by
  constructor
  · intro env
    obtain ⟨it, hmem, hit⟩ := hex
    have hpos : 0 < items.length := List.length_pos_of_mem hmem
    have hfind : items.findIdx (fun it => stripIsEmpty it.user_response) < items.length :=
      List.findIdx_lt_length_of_exists ⟨it, hmem, by simp [hit]⟩
    unfold evaluate_batch
    rw [if_neg (by omega), if_neg (by omega)]
    rw [validateLoop_error_of_blank 0 items hfind]
    rw [Nat.zero_add]
  · intro env q cat icf resp hresp
    unfold evaluate_response
    rw [if_pos hresp]

theorem c9_blank_response_validation_witness :
    (evaluate_batch envBase [goodItem, ⟨"Q2", " ", "race", false⟩] =
      .error (.valueError ("Item " ++
        toString ([goodItem, ⟨"Q2", " ", "race", false⟩].findIdx
          (fun it => stripIsEmpty it.user_response)) ++
        ": user_response cannot be empty"))) ∧
    evaluate_response envBase "Q" " " "gender" false =
      .error (.valueError "user_response cannot be empty") :=
  ⟨(c9_blank_response_validation [goodItem, ⟨"Q2", " ", "race", false⟩]
      (by decide) ⟨⟨"Q2", " ", "race", false⟩, by decide, by decide⟩).1 envBase,
   (c9_blank_response_validation [goodItem, ⟨"Q2", " ", "race", false⟩]
      (by decide) ⟨⟨"Q2", " ", "race", false⟩, by decide, by decide⟩).2 envBase
     "Q" "gender" false " " (by decide)⟩

/-- C10: feeding the worker the document
`{"type": "batch", "items": [{"question_text": "Q", "user_response": "R",
"category": "gender"}]}` produces, whatever the scorers do, exactly one JSON
document `{"success": true, "results": [r]}` with exactly one result entry
and exit code 0; and whenever a worker run does not exit 0 (parse failure or
any exception), it prints one document `{"success": false, "error": s}` and
exits 1. -/
theorem c10_worker_roundtrip (env : ScorerEnv) :
    (∃ r, worker_main env (.ok c10payload) =
      ⟨.jobj [("success", .jbool true), ("results", .jarr [r])], 0⟩) ∧
    (∀ parsed : Except String Json, (worker_main env parsed).exitCode ≠ 0 →
      (worker_main env parsed).exitCode = 1 ∧
      ∃ s, (worker_main env parsed).stdout =
        .jobj [("success", .jbool false), ("error", .jstr s)]) := by
  constructor
  · obtain ⟨rs, hrc, hlen⟩ := runPipeline_ok_of_nocf env [⟨"Q", "R", "gender", false, 0⟩]
      (by decide)
      (by
        intro i hi
        have hz : i = 0 := by simp at hi; omega
        subst hz
        rfl)
    obtain ⟨r, hr⟩ := List.length_eq_one.mp (by simpa using hlen)
    subst hr
    refine ⟨evalResultJson r, ?_⟩
    have hstep : run_evaluation env c10payload =
        match runPipeline env [⟨"Q", "R", "gender", false, 0⟩] with
        | .error e => .error e
        | .ok results => .ok (.jobj [("success", .jbool true),
            ("results", .jarr (results.map evalResultJson))]) := rfl
    have hre : run_evaluation env c10payload =
        .ok (.jobj [("success", .jbool true),
          ("results", .jarr [evalResultJson r])]) := by
      rw [hstep, hrc]
      rfl
    have hw : worker_main env (.ok c10payload) =
        match run_evaluation env c10payload with
        | .ok result => ⟨result, 0⟩
        | .error err =>
            ⟨.jobj [("success", .jbool false),
              ("error", .jstr (err.message.take 500))], 1⟩ := rfl
    rw [hw, hre]
  · intro parsed hne
    cases parsed with
    | error e => exact ⟨rfl, ⟨_, rfl⟩⟩
    | ok payload =>
        cases hrun : run_evaluation env payload with
        | ok doc =>
            exact absurd (by simp [worker_main, hrun]) hne
        | error err =>
            refine ⟨by simp [worker_main, hrun], ⟨err.message.take 500, ?_⟩⟩
            simp [worker_main, hrun]

theorem c10_worker_roundtrip_witness :
    (∃ r, worker_main envBase (.ok c10payload) =
      ⟨.jobj [("success", .jbool true), ("results", .jarr [r])], 0⟩) ∧
    ((worker_main envBase (.error "bad")).exitCode = 1 ∧
      ∃ s, (worker_main envBase (.error "bad")).stdout =
        .jobj [("success", .jbool false), ("error", .jstr s)]) :=
  ⟨(c10_worker_roundtrip envBase).1,
   (c10_worker_roundtrip envBase).2 (.error "bad") (by decide)⟩

end RossServer
